import Mathlib

/-!
# Shallow embedding of the GPT-simulator core engine

This file embeds the shared text-game engine of the repository, as
instantiated by `src/data/games/dishwasher.py` (the representative game the
claims cite), into Lean 4, and proves the frozen claims about it.

Modelling conventions:
* Python objects are mutable and aliased; we model the heap as a list of
  `Entity` records indexed by the object's `uuid` (the global `UUID` counter
  assigns consecutive ids starting from 0, and ids are list positions).
  Mutating a field of object `i` is `modifyEnt s i f`.
* The Python property bag (`self.properties`) holds keys that are present or
  absent per class; `getProperty` returns `None` for an absent key.  The two
  keys every object has (`isContainer`, `isMoveable`) are plain `Bool` fields;
  every other key is `Option`-valued, `none` meaning "key absent".
* Recursive tree walks (`getAllContainedObjectsRecursive`, description
  strings) use fuel `s.ents.length`; on the acyclic states the game
  produces this computes the same result as the Python recursion
  (proved below for well-formed states).
* Methods that return Python tuples `(obs, success)` or `(obs, objRef,
  success)` return a `CResult`; `ref = none` encodes a 2-tuple, and
  `ref = some r` encodes a 3-tuple whose middle component is `r`
  (`some none` for Python `None`).
-/

/-- Object ids: the global `UUID` counter values. -/
abbrev EId := Nat

/-- The concrete class of a game object (`type(obj)` in Python).
`dishwasher.py` defines exactly these instantiable classes. -/
inductive EKind where
  | world
  | agent
  | dishwasher
  | dishSoapBottle
  | soap
  | food
  | dish
  deriving DecidableEq, Repr

/-- The property bag of a game object (`self.properties`).
`isContainer` and `isMoveable` are set by `GameObject.__init__` on every
object; every other key may be absent (`none`). `foodMessName` can be present
with value `None` (`some none`). -/
structure Props where
  isContainer : Bool
  isMoveable : Bool
  isOpenable : Option Bool := none
  isOpen : Option Bool := none
  containerPfx : Option String := none   -- "containerPrefix" in the source
  isDevice : Option Bool := none
  isActivatable : Option Bool := none
  isOn : Option Bool := none
  cycleStage : Option Nat := none
  finishedCycle : Option Bool := none
  dishType : Option String := none
  isDirty : Option Bool := none
  foodMessName : Option (Option String) := none
  isFood : Option Bool := none
  deriving DecidableEq, Repr

/-- One game object: class, `self.name`, `self.parentContainer`,
`self.contains`, `self.properties`, and the `Food`-only attribute
`self.foodName`. -/
structure Entity where
  kind : EKind
  name : String
  parent : Option EId
  contains : List EId
  props : Props
  foodName : Option String := none
  deriving DecidableEq, Repr

/-- Properties of a bare `GameObject` after `GameObject.__init__`. -/
def gameObjectProps : Props :=
  { isContainer := false, isMoveable := true }

/-- Placeholder produced when dereferencing an id that names no object.
Python has no analogue (references always name live objects), so the
placeholder is chosen inert: parentless, empty, not a container, not
moveable, no optional property present — every handler guard rejects it. -/
def defaultEntity : Entity :=
  { kind := .soap, name := "", parent := none, contains := [],
    props := { isContainer := false, isMoveable := false } }

instance : Inhabited Entity := ⟨defaultEntity⟩

/-- The full interpreter state: the object heap plus the `TextGame` fields
used by the engine (`self.score`, `self.numSteps`, `self.gameOver`,
`self.gameWon`, `self.observationStr`, `self.numStartingDirtyDishes`, and the
ids of `self.agent` and `self.rootObject`). -/
structure GameState where
  ents : List Entity
  agentId : EId
  rootId : EId
  score : Int
  numSteps : Nat
  gameOver : Bool
  gameWon : Bool
  observationStr : String
  numStartingDirtyDishes : Nat
  deriving DecidableEq, Repr

/-- Dereference an object id. -/
def getEnt (s : GameState) (i : EId) : Entity :=
  (s.ents[i]?).getD defaultEntity

/-- Overwrite the object stored at id `i`. -/
def setEnt (s : GameState) (i : EId) (e : Entity) : GameState :=
  { s with ents := s.ents.set i e }

/-- Mutate one field of the object at id `i`. -/
def modifyEnt (s : GameState) (i : EId) (f : Entity → Entity) : GameState :=
  setEnt s i (f (getEnt s i))

/-- Python truthiness of `getProperty` results (`None` and `False` are
falsy). -/
def pyTruthy : Option Bool → Bool
  | some b => b
  | none => false

/-- `GameObject.removeObject(self=c, obj=o)`: `self.contains.remove(obj)`
(first occurrence) and `obj.parentContainer = None`. -/
def removeObject (s : GameState) (c o : EId) : GameState :=
  let s1 := modifyEnt s c (fun e => { e with contains := e.contains.erase o })
  modifyEnt s1 o (fun e => { e with parent := none })

/-- `GameObject.removeSelfFromContainer(self=o)`. -/
def removeSelfFromContainer (s : GameState) (o : EId) : GameState :=
  match (getEnt s o).parent with
  | some p => removeObject s p o
  | none => s

/-- `GameObject.addObject(self=c, obj=o)`: remove `o` from its previous
container, append it to `c.contains`, and set its parent. -/
def addObject (s : GameState) (c o : EId) : GameState :=
  let s1 := removeSelfFromContainer s o
  let s2 := modifyEnt s1 c (fun e => { e with contains := e.contains ++ [o] })
  modifyEnt s2 o (fun e => { e with parent := some c })

/-- Fueled pre-order walk of the containment tree below `i` (the body of
`GameObject.getAllContainedObjectsRecursive`). -/
def recContains (s : GameState) : Nat → EId → List EId
  | 0, _ => []
  | fuel + 1, i =>
      (getEnt s i).contains.flatMap (fun c => c :: recContains s fuel c)

/-- `GameObject.getAllContainedObjectsRecursive(self=i)`: all transitively
contained objects in pre-order.  Fuel `s.ents.length` suffices on
well-formed states (proved below). -/
def getAllContainedObjectsRecursive (s : GameState) (i : EId) : List EId :=
  recContains s s.ents.length i

/-!
## Referents and descriptions
-/

/-- `GameObject.getReferents` with the per-class overrides of
`dishwasher.py`: `Dish` prepends "dirty "/"clean " (and also answers to its
plain name), `Agent` answers to "yourself", everything else to `self.name`. -/
def getReferents (s : GameState) (i : EId) : List String :=
  let e := getEnt s i
  match e.kind with
  | .dish =>
      ((if e.props.isDirty = some true then "dirty " else "clean ") ++ e.name)
        :: [e.name]
  | .agent => ["yourself"]
  | _ => [e.name]

/-- `obj.getReferents()[0]`. -/
def ref0 (s : GameState) (i : EId) : String :=
  (getReferents s i).headD ""

/-- `obj.parentContainer.getReferents()[0]` (Python raises when the parent is
`None`; that path is unreachable for objects enumerated from the root). -/
def parentRef0 (s : GameState) (i : EId) : String :=
  match (getEnt s i).parent with
  | some p => ref0 s p
  | none => ""

/-- Fueled `makeDescriptionStr` (dynamic dispatch on the object's class).
`detailed` is the `makeDetailed` flag. -/
def mkDesc (s : GameState) : Nat → EId → Bool → String
  | 0, _, _ => ""
  | fuel + 1, i, detailed =>
    let e := getEnt s i
    match e.kind with
    | .world =>
        -- World.makeDescriptionStr
        e.contains.foldl
          (fun acc c => acc ++ "\t" ++ mkDesc s fuel c false ++ "\n")
          "You find yourself in a kitchen.  In the kitchen, you see: \n"
    | .agent => "yourself"
    | .dishSoapBottle => "a " ++ e.name
    | .soap => "a squirt of " ++ e.name
    | .food => "a " ++ e.name
    | .dishwasher =>
        -- DishWasher.makeDescriptionStr
        let o1 := "a " ++ e.name
        let o2 := if e.props.finishedCycle = some true
          then o1 ++ " with a blinking green light" else o1
        if e.props.isOn = some true then o2 ++ " that is currently on"
        else if e.props.isOpen = some true then
          let o3 := o2 ++ " that is currently open"
          if e.contains.length = 0 then o3 ++ " and empty"
          else if !detailed then o3 ++ " and contains one or more items."
          else e.contains.foldl
            (fun acc c => acc ++ "\t" ++ mkDesc s fuel c false ++ "\n")
            (o3 ++ " and contains the following items: \n")
        else o2 ++ " that is currently closed"
    | .dish =>
        -- Dish.makeDescriptionStr
        let o1 := (if e.props.isDirty = some true then "a dirty " else "a clean ")
          ++ e.name
        let mess : List String :=
          if e.props.isDirty = some true then
            ["half-eaten pieces of " ++ ((e.props.foodMessName.getD none).getD "")]
          else []
        let effectiveContents :=
          mess ++ e.contains.map (fun c => mkDesc s fuel c false)
        if effectiveContents.length = 0 then o1
        else
          let n := effectiveContents.length
          let body := (List.range n).foldl
            (fun acc j =>
              (if j = n - 1 ∧ 1 < n then acc ++ "and " else acc)
                ++ effectiveContents.getD j "" ++ ", ")
            (o1 ++ " that looks to have ")
          body.dropRight 2 ++ " " ++ (e.props.containerPfx.getD "") ++ " it"

/-- `obj.makeDescriptionStr(makeDetailed)` with the standard fuel. -/
def makeDescriptionStr (s : GameState) (i : EId) (detailed : Bool) : String :=
  mkDesc s s.ents.length i detailed

/-!
## Container and Device methods

`CResult.ref` encodes the arity of the returned Python tuple: `none` for a
2-tuple `(obs, success)`, `some r` for a 3-tuple `(obs, r, success)`.
-/

/-- Result of a Container/Device method call: the returned tuple plus the
mutated interpreter state. -/
structure CResult where
  obs : String
  ref : Option (Option EId)
  success : Bool
  state : GameState
  deriving DecidableEq, Repr

/-- `Container.openContainer(self=i)`. -/
def openContainer (s : GameState) (i : EId) : CResult :=
  let e := getEnt s i
  if !(pyTruthy e.props.isOpenable) then
    ⟨"The " ++ e.name ++ " can't be opened.", none, false, s⟩
  else if pyTruthy e.props.isOpen then
    ⟨"The " ++ e.name ++ " is already open.", none, false, s⟩
  else
    ⟨"The " ++ e.name ++ " is now open.", none, true,
      modifyEnt s i (fun e => { e with props := { e.props with isOpen := some true } })⟩

/-- `Container.closeContainer(self=i)`. -/
def closeContainer (s : GameState) (i : EId) : CResult :=
  let e := getEnt s i
  if !(e.props.isOpenable = some true) then
    ⟨"The " ++ e.name ++ " can't be closed.", none, false, s⟩
  else if !(e.props.isOpen = some true) then
    ⟨"The " ++ e.name ++ " is already closed.", none, false, s⟩
  else
    ⟨"The " ++ e.name ++ " is now closed.", none, true,
      modifyEnt s i (fun e => { e with props := { e.props with isOpen := some false } })⟩

/-- `Container.placeObjectInContainer(self=c, obj=o)`.  Note the source's
"not moveable" branch returns a 3-tuple (`ref = some none`) even though the
method otherwise returns 2-tuples. -/
def placeObjectInContainer (s : GameState) (c o : EId) : CResult :=
  if !((getEnt s c).props.isContainer = true) then
    ⟨"The " ++ (getEnt s c).name ++ " is not a container, so things can't be placed there.",
      none, false, s⟩
  else if !((getEnt s o).props.isMoveable = true) then
    ⟨"The " ++ (getEnt s o).name ++ " is not moveable.", some none, false, s⟩
  else if !((getEnt s c).props.isOpen = some true) then
    ⟨"The " ++ (getEnt s c).name ++ " is closed, so things can't be placed there.",
      none, false, s⟩
  else
    let s1 := addObject s c o
    ⟨"The " ++ ref0 s1 o ++ " is placed in the " ++ (getEnt s1 c).name ++ ".",
      none, true, s1⟩

/-- `Container.takeObjectFromContainer(self=c, obj=o)`. -/
def takeObjectFromContainer (s : GameState) (c o : EId) : CResult :=
  if !((getEnt s c).props.isContainer = true) then
    ⟨"The " ++ (getEnt s c).name ++ " is not a container, so things can't be removed from it.",
      some none, false, s⟩
  else if !((getEnt s o).props.isMoveable = true) then
    ⟨"The " ++ (getEnt s o).name ++ " is not moveable.", some none, false, s⟩
  else if !((getEnt s c).props.isOpen = some true) then
    ⟨"The " ++ (getEnt s c).name ++ " is closed, so things can't be removed from it.",
      some none, false, s⟩
  else if !(o ∈ (getEnt s c).contains) then
    ⟨"The " ++ (getEnt s o).name ++ " is not contained in the " ++ (getEnt s c).name ++ ".",
      some none, false, s⟩
  else
    let s1 := removeSelfFromContainer s o
    ⟨"The " ++ ref0 s1 o ++ " is removed from the " ++ (getEnt s1 c).name ++ ".",
      some (some o), true, s1⟩

/-- `Device.turnOn(self=i)`. -/
def deviceTurnOn (s : GameState) (i : EId) : CResult :=
  let e := getEnt s i
  if e.props.isActivatable = some false then
    ⟨"It's not clear how the " ++ ref0 s i ++ " could be turned on.", none, false, s⟩
  else if pyTruthy e.props.isOn then
    ⟨"The " ++ ref0 s i ++ " is already on.", none, false, s⟩
  else
    ⟨"The " ++ ref0 s i ++ " is now turned on.", none, true,
      modifyEnt s i (fun e => { e with props := { e.props with isOn := some true } })⟩

/-- `Device.turnOff(self=i)`. -/
def deviceTurnOff (s : GameState) (i : EId) : CResult :=
  let e := getEnt s i
  if e.props.isActivatable = some false then
    ⟨"It's not clear how the " ++ ref0 s i ++ " could be turned off.", none, false, s⟩
  else if !(pyTruthy e.props.isOn) then
    ⟨"The " ++ ref0 s i ++ " is already off.", none, false, s⟩
  else
    ⟨"The " ++ ref0 s i ++ " is now turned off.", none, true,
      modifyEnt s i (fun e => { e with props := { e.props with isOn := some false } })⟩

/-- `DishWasher.turnOn(self=i)`: refuses while the door is open, then defers
to `Device.turnOn`. -/
def dishWasherTurnOn (s : GameState) (i : EId) : CResult :=
  if pyTruthy (getEnt s i).props.isOpen then
    ⟨"The " ++ (getEnt s i).name ++ " is opened, so it can't be turned on.", none, false, s⟩
  else deviceTurnOn s i

/-- Virtual dispatch of `turnOn` (only `DishWasher` overrides it). -/
def turnOnDispatch (s : GameState) (i : EId) : CResult :=
  if (getEnt s i).kind = .dishwasher then dishWasherTurnOn s i else deviceTurnOn s i

/-- A fresh `Soap()` object with uuid `n`. -/
def soapEntity (n : Nat) : Entity :=
  { kind := .soap, name := "dish soap (ID: " ++ toString n ++ ")",
    parent := none, contains := [], props := gameObjectProps }

/-- Virtual dispatch of `useWithObject` (only `DishSoapBottle` overrides the
`Device` default). -/
def useWithObject (s : GameState) (d p : EId) : CResult :=
  if (getEnt s d).kind = .dishSoapBottle then
    if (getEnt s p).kind = .dish then
      let n := s.ents.length
      let s1 := addObject { s with ents := s.ents ++ [soapEntity n] } p n
      ⟨"You squirt some dish soap on the " ++ ref0 s1 p ++ ".", none, true, s1⟩
    else if (getEnt s p).kind = .dishwasher then
      let n := s.ents.length
      let s1 := addObject { s with ents := s.ents ++ [soapEntity n] } p n
      ⟨"You squirt some dish soap into the dishwasher.", none, true, s1⟩
    else
      ⟨"You're not sure how to use the " ++ (getEnt s d).name ++ " with the "
        ++ (getEnt s p).name ++ ".", none, false, s⟩
  else
    ⟨"You're not sure how to use the " ++ ref0 s d ++ " with the "
      ++ (getEnt s p).name ++ ".", none, false, s⟩

/-!
## Environment tick
-/

/-- `Dish.makeClean(self=o)`. -/
def makeClean (s : GameState) (o : EId) : GameState :=
  modifyEnt s o (fun e =>
    { e with props := { e.props with isDirty := some false, foodMessName := some none } })

/-- `self.properties["cycleStage"]` (always present on dishwashers). -/
def cycleStageOf (s : GameState) (w : EId) : Nat :=
  ((getEnt s w).props.cycleStage).getD 0

/-- `DishWasher.tick(self=w)`. -/
def dishWasherTick (s : GameState) (w : EId) : GameState :=
  -- If the dishwasher is opened, then it automatically turns off and resets
  let s := if (getEnt s w).props.isOpen = some true then
      modifyEnt s w (fun e =>
        { e with props := { e.props with
            isOn := some false, finishedCycle := some false, cycleStage := some 0 } })
    else s
  -- If the dishwasher is on, then wash the dishes
  if (getEnt s w).props.isOn = some true then
    let s := if cycleStageOf s w < 3 then
        modifyEnt s w (fun e =>
          { e with props := { e.props with cycleStage := some (cycleStageOf s w + 1) } })
      else s
    if cycleStageOf s w = 2 then
      -- Check to see if there is soap in the dishwasher
      let containsSoap :=
        (getAllContainedObjectsRecursive s w).any (fun o => (getEnt s o).kind == .soap)
      -- If there is soap in the dishwasher, then wash the dishes
      let s := if containsSoap then
          (getAllContainedObjectsRecursive s w).foldl
            (fun t o => if (getEnt t o).kind = .dish then makeClean t o else t) s
        else s
      -- Remove any soap from the dishwasher
      (getAllContainedObjectsRecursive s w).foldl
        (fun t o => if (getEnt t o).kind = .soap then removeSelfFromContainer t o else t) s
    else if cycleStageOf s w = 3 then
      let s := modifyEnt s w (fun e =>
        { e with props := { e.props with finishedCycle := some true, cycleStage := some 0 } })
      (deviceTurnOff s w).state
    else s
  else s

/-- One `obj.tick()` call: every class inherits the no-op
`GameObject.tick` except `DishWasher`. -/
def tickOne (s : GameState) (i : EId) : GameState :=
  if (getEnt s i).kind = .dishwasher then dishWasherTick s i else s

/-- `TextGame.doWorldTick`: collect all objects below the root, then call
`tick()` on each in that (pre-order) sequence. -/
def doWorldTick (s : GameState) : GameState :=
  (getAllContainedObjectsRecursive s s.rootId).foldl tickOne s

/-!
## Action handlers (`TextGame.actionXxx`)

Each handler returns the post-state with `observationStr` set to the string
the Python handler returns.
-/

/-- Set the observation returned by a handler. -/
def withObs (s : GameState) (msg : String) : GameState :=
  { s with observationStr := msg }

/-- `TextGame.actionInventory`. -/
def actionInventory (s : GameState) : GameState :=
  let inventory := (getEnt s s.agentId).contains
  if inventory.length = 0 then withObs s "Your inventory is empty."
  else withObs s (inventory.foldl
    (fun acc o => acc ++ "\t" ++ makeDescriptionStr s o false ++ "\n")
    "You have the following items in your inventory:\n")

/-- `TextGame.actionEat(obj=o, dish=d)`. -/
def actionEat (s : GameState) (o d : EId) : GameState :=
  -- Enforce that the object must be in the inventory to do anything with it
  if (getEnt s o).parent ≠ some s.agentId then
    withObs s ("You don't currently have the " ++ ref0 s o ++ " in your inventory.")
  else if (getEnt s d).kind ≠ .dish then
    withObs s ((getEnt s d).name ++ " is not a dish.")
  else if (getEnt s d).props.isDirty = some true then
    withObs s "You can't eat with a dirty dish."
  else if (getEnt s o).props.isFood = some true then
    -- obj.parentContainer is the agent here (checked above)
    let take := takeObjectFromContainer s s.agentId o
    if take.success = false then withObs take.state "You can't see that."
    else
      let s1 := modifyEnt take.state d (fun e =>
        { e with props := { e.props with
            isDirty := some true, foodMessName := some (some (getEnt take.state o).name) } })
      let s2 := addObject s1 s1.rootId d
      withObs s2 ("You eat the " ++ ((getEnt s2 o).foodName.getD "") ++ " using the "
        ++ ((getEnt s2 d).props.dishType.getD "") ++ ".")
  else withObs s "You can't eat that."

/-- `TextGame.actionOpen(obj=o)`. -/
def actionOpen (s : GameState) (o : EId) : GameState :=
  if (getEnt s o).props.isContainer = true then
    let r := openContainer s o
    withObs r.state r.obs
  else withObs s "You can't open that."

/-- `TextGame.actionClose(obj=o)`. -/
def actionClose (s : GameState) (o : EId) : GameState :=
  if (getEnt s o).props.isContainer = true then
    let r := closeContainer s o
    withObs r.state r.obs
  else withObs s "You can't close that."

/-- `TextGame.actionTake(obj=o)`. -/
def actionTake (s : GameState) (o : EId) : GameState :=
  match (getEnt s o).parent with
  | none =>
      withObs s "Something has gone wrong -- that object is dangling in the void.  You can't take that."
  | some p =>
      if (getEnt s o).kind = .agent then withObs s "You cannot take yourself."
      else
        let take := takeObjectFromContainer s p o
        if take.success = false then withObs take.state take.obs
        else
          let s1 := addObject take.state take.state.agentId o
          withObs s1 (take.obs ++ " You put the " ++ ref0 s1 o ++ " in your inventory.")

/-- `TextGame.actionPut(objToMove=o, newContainer=c)`: detach-then-insert
with reinsertion into the original container when the insert fails. -/
def actionPut (s : GameState) (o c : EId) : GameState :=
  if (getEnt s c).props.isContainer = false then
    withObs s ("You can't put things in the " ++ ref0 s c ++ ".")
  else if (getEnt s o).parent ≠ some s.agentId then
    withObs s ("You don't currently have the " ++ ref0 s o ++ " in your inventory.")
  else
    -- originalContainer := objToMove.parentContainer, pinned to the agent by
    -- the guard above
    let originalContainer := s.agentId
    let take := takeObjectFromContainer s originalContainer o
    if take.success = false then withObs take.state take.obs
    else
      let place := placeObjectInContainer take.state c o
      if place.success = false then
        -- put the object back into the original container
        let s1 := addObject place.state originalContainer o
        withObs s1 place.obs
      else withObs place.state (take.obs ++ "\n" ++ place.obs)

/-- `TextGame.actionTurnOn(obj=o)`. -/
def actionTurnOn (s : GameState) (o : EId) : GameState :=
  if (getEnt s o).props.isDevice = some true then
    let r := turnOnDispatch s o
    withObs r.state r.obs
  else withObs s "You can't turn on that."

/-- `TextGame.actionTurnOff(obj=o)` (no class overrides `turnOff`). -/
def actionTurnOff (s : GameState) (o : EId) : GameState :=
  if (getEnt s o).props.isDevice = some true then
    let r := deviceTurnOff s o
    withObs r.state r.obs
  else withObs s "You can't turn off that."

/-- `TextGame.actionUse(deviceObj=d, patientObject=p)`. -/
def actionUse (s : GameState) (d p : EId) : GameState :=
  if (getEnt s d).props.isDevice = some true then
    let r := useWithObject s d p
    withObs r.state r.obs
  else withObs s "You can't use that."

/-!
## Referent resolver and action catalog (`makeNameToObjectDict`,
`generatePossibleActions`)
-/

/-- An action-argument tuple `[verb, obj, ...]` from the catalog. -/
inductive GAction where
  | lookAround
  | inventory
  | take (o : EId)
  | openAct (o : EId)
  | closeAct (o : EId)
  | examine (o : EId)
  | turnOn (o : EId)
  | turnOff (o : EId)
  | eat (o d : EId)
  | put (o c : EId)
  | use (d p : EId)
  deriving DecidableEq, Repr

/-- Insertion-ordered dictionary (Python `dict` preserves insertion order). -/
abbrev Dict (α : Type) := List (String × List α)

/-- `d[k].append(v)` after `if k not in d: d[k] = []`. -/
def dictAdd {α : Type} (d : Dict α) (k : String) (v : α) : Dict α :=
  if d.any (fun p => p.1 == k) then
    d.map (fun p => if p.1 == k then (p.1, p.2 ++ [v]) else p)
  else d ++ [(k, [v])]

/-- `d[k]` (`none` when the key is absent). -/
def dictLookup {α : Type} (d : Dict α) (k : String) : Option (List α) :=
  (d.find? (fun p => p.1 == k)).map (fun p => p.2)

/-- `TextGame.makeNameToObjectDict`: referent string → objects carrying that
referent, enumerated over the pre-order walk below the root. -/
def makeNameToObjectDict (s : GameState) : Dict EId :=
  (getAllContainedObjectsRecursive s s.rootId).foldl
    (fun d i => (getReferents s i).foldl (fun d n => dictAdd d n i) d) []

/-- `TextGame.addAction`. -/
def addAction (cat : Dict GAction) (actionStr : String) (a : GAction) : Dict GAction :=
  dictAdd cat actionStr a

/-- `TextGame.generatePossibleActions`: command string → list of argument
tuples, built by the source's enumeration loops in their textual order. -/
def generatePossibleActions (s : GameState) : Dict GAction :=
  let allObjects := makeNameToObjectDict s
  let cat : Dict GAction := []
  -- (0-arg)
  let cat := addAction cat "look around" .lookAround
  let cat := addAction cat "look" .lookAround
  let cat := addAction cat "inventory" .inventory
  -- (1-arg) Take
  let cat := allObjects.foldl (fun cat p =>
    p.2.foldl (fun cat o =>
      let cat := addAction cat ("take " ++ p.1) (.take o)
      addAction cat ("take " ++ p.1 ++ " from " ++ parentRef0 s o) (.take o)) cat) cat
  -- (1-arg) Open/Close
  let cat := allObjects.foldl (fun cat p =>
    p.2.foldl (fun cat o =>
      let cat := addAction cat ("open " ++ p.1) (.openAct o)
      addAction cat ("close " ++ p.1) (.closeAct o)) cat) cat
  -- (1-arg) Detailed look/examine
  let cat := allObjects.foldl (fun cat p =>
    p.2.foldl (fun cat o => addAction cat ("examine " ++ p.1) (.examine o)) cat) cat
  -- (1-arg) Turn on/Turn off device
  let cat := allObjects.foldl (fun cat p =>
    p.2.foldl (fun cat o =>
      let cat := addAction cat ("turn on " ++ p.1) (.turnOn o)
      addAction cat ("turn off " ++ p.1) (.turnOff o)) cat) cat
  -- (2-arg) Eat (no distinctness check in the source)
  let cat := allObjects.foldl (fun cat p1 =>
    allObjects.foldl (fun cat p2 =>
      p1.2.foldl (fun cat o1 =>
        p2.2.foldl (fun cat o2 =>
          addAction cat ("eat " ++ p1.1 ++ " with " ++ p2.1) (.eat o1 o2)) cat) cat) cat) cat
  -- (2-arg) Put
  let cat := allObjects.foldl (fun cat p1 =>
    allObjects.foldl (fun cat p2 =>
      p1.2.foldl (fun cat o1 =>
        p2.2.foldl (fun cat o2 =>
          if o1 ≠ o2 then
            let pfx := if (getEnt s o2).props.isContainer then
                ((getEnt s o2).props.containerPfx).getD "in"
              else "in"
            addAction cat ("put " ++ p1.1 ++ " " ++ pfx ++ " " ++ p2.1) (.put o1 o2)
          else cat) cat) cat) cat) cat
  -- (2-arg) Use
  allObjects.foldl (fun cat p1 =>
    allObjects.foldl (fun cat p2 =>
      p1.2.foldl (fun cat o1 =>
        p2.2.foldl (fun cat o2 =>
          if o1 ≠ o2 then addAction cat ("use " ++ p1.1 ++ " on " ++ p2.1) (.use o1 o2)
          else cat) cat) cat) cat) cat

/-!
## Turn engine (`step_action`, `step_tick`, `step_calculate_score`, `step`)

`TextGame` stores `self.possibleActions`, but both `__init__` and the
read-eval-print loop regenerate it from the current tree before every `step`
call, so `step_action` is modelled as consulting
`generatePossibleActions` of the incoming state.
-/

/-- Dispatch one argument tuple to its handler (the `if actionVerb == ...`
chain of `step_action`). -/
def applyAction (s : GameState) (a : GAction) : GameState :=
  match a with
  | .lookAround => withObs s (makeDescriptionStr s s.rootId false)
  | .inventory => actionInventory s
  | .examine o => withObs s (makeDescriptionStr s o true)
  | .eat o d => actionEat s o d
  | .openAct o => actionOpen s o
  | .closeAct o => actionClose s o
  | .take o => actionTake s o
  | .turnOn o => actionTurnOn s o
  | .turnOff o => actionTurnOff s o
  | .put o c => actionPut s o c
  | .use d p => actionUse s d p

/-- `TextGame.step_action`: unmatched strings yield the fixed observation;
matched strings bump `numSteps` and dispatch the first registered tuple. -/
def step_action (s : GameState) (actionStr : String) : GameState :=
  let s := withObs s ""
  match dictLookup (generatePossibleActions s) actionStr with
  | none => withObs s "I don't understand that."
  | some actions =>
      let s := { s with numSteps := s.numSteps + 1 }
      -- both branches of the source's ambiguity check pick `actions[0]`
      match (if 1 < actions.length then actions[0]? else actions[0]?) with
      | some a => applyAction s a
      | none => s   -- unreachable: catalog entries are built non-empty

/-- `TextGame.calculateScore` of `dishwasher.py`: one point below the
starting count per dirty dish still in the tree; the game latches to
won/over when none remain. -/
def calculateScore (s : GameState) : GameState :=
  let counted := (getAllContainedObjectsRecursive s s.rootId).foldl
    (fun (acc : Int × Nat) o =>
      if (getEnt s o).kind = .dish ∧ (getEnt s o).props.isDirty = some true then
        (acc.1 - 1, acc.2 + 1)
      else acc)
    ((s.numStartingDirtyDishes : Int), 0)
  let s1 := { s with score := counted.1 }
  if counted.2 = 0 then { s1 with gameOver := true, gameWon := true } else s1

/-- `TextGame.step`: action effect, environment tick, rescore; the second
component is the returned `reward`. -/
def step (s : GameState) (actionStr : String) : GameState × Int :=
  let s1 := step_action s actionStr
  let s2 := doWorldTick s1
  let lastScore := s2.score
  let s3 := calculateScore s2
  (s3, s3.score - lastScore)

/-!
## World initialization (`TextGame.__init__` / `initializeWorld`)

The seeded RNG only shuffles the dish/food name lists and draws the three
object counts; `newGame` takes those outcomes as parameters.
-/

/-- `f"{name} (ID: {self.uuid})"`. -/
def mkName (base : String) (uuid : Nat) : String :=
  base ++ " (ID: " ++ toString uuid ++ ")"

/-- Properties after `Container.__init__`. -/
def containerProps : Props :=
  { isContainer := true, isMoveable := true, isOpenable := some false,
    isOpen := some true, containerPfx := some "in" }

/-- The literal `containerPrefixes` dict of `initializeWorld` (total here;
Python would raise on a key outside the game's dish-name list). -/
def containerPrefixes (d : String) : String :=
  if d = "plate" then "on"
  else if d = "bowl" then "in"
  else if d = "cup" then "in"
  else if d = "mug" then "in"
  else if d = "pot" then "in"
  else if d = "pan" then "in"
  else if d = "fork" then "on"
  else if d = "spoon" then "on"
  else if d = "knife" then "on"
  else if d = "bottle" then "in"
  else if d = "glass" then "in"
  else "in"

/-- `Agent()` (uuid 0: created first in `TextGame.__init__`). -/
def agentEntity : Entity :=
  { kind := .agent, name := mkName "agent" 0, parent := none, contains := [],
    props := containerProps }

/-- `World()` (uuid 1). -/
def worldEntity : Entity :=
  { kind := .world, name := mkName "kitchen" 1, parent := none, contains := [],
    props := containerProps }

/-- `DishWasher()` with uuid `n`. -/
def dishWasherEntity (n : Nat) : Entity :=
  { kind := .dishwasher, name := mkName "dishwasher" n, parent := none, contains := [],
    props := { containerProps with
      isOpenable := some true, isOpen := some false, isMoveable := false,
      isDevice := some true, isActivatable := some true, isOn := some false,
      cycleStage := some 0, finishedCycle := some false } }

/-- `DishSoapBottle()` with uuid `n` (a `Device`, not a container). -/
def dishSoapBottleEntity (n : Nat) : Entity :=
  { kind := .dishSoapBottle, name := mkName "bottle of dish soap" n,
    parent := none, contains := [],
    props := { gameObjectProps with
      isDevice := some true, isActivatable := some true, isOn := some false } }

/-- `Dish(dishType, isDirty=True, foodName, containerPrefix)` with uuid `n`. -/
def dirtyDishEntity (n : Nat) (dishType foodName pfx : String) : Entity :=
  { kind := .dish, name := mkName dishType n, parent := none, contains := [],
    props := { containerProps with
      containerPfx := some pfx, dishType := some dishType,
      isDirty := some true, foodMessName := some (some foodName) } }

/-- `Dish(dishType, isDirty=False, foodName="")` with uuid `n`
(`foodMessName` stays absent). -/
def cleanDishEntity (n : Nat) (dishType : String) : Entity :=
  { kind := .dish, name := mkName dishType n, parent := none, contains := [],
    props := { containerProps with
      dishType := some dishType, isDirty := some false } }

/-- `Food(foodName)` with uuid `n`. -/
def foodEntity (n : Nat) (foodName : String) : Entity :=
  { kind := .food, name := mkName foodName n, parent := none, contains := [],
    props := { gameObjectProps with isFood := some true },
    foodName := some foodName }

/-- Create a fresh object and `world.addObject` it (every `initializeWorld`
line is of this shape). -/
def pushObject (s : GameState) (e : Nat → Entity) (parent : EId) : GameState :=
  let n := s.ents.length
  addObject { s with ents := s.ents ++ [e n] } parent n

/-- The state right after `Agent()` and `World()` are constructed: two
objects, nothing yet contained, all engine fields at their `__init__`
values. -/
def initSeed (numDirty : Nat) : GameState :=
  { ents := [agentEntity, worldEntity], agentId := 0, rootId := 1,
    score := 0, numSteps := 0, gameOver := false, gameWon := false,
    observationStr := "", numStartingDirtyDishes := numDirty }

/-- `TextGame.initializeWorld`, parametric in the RNG outcomes: `dishNames`
and `foodNames` are the shuffled lists, `numDirty`/`numClean`/`numFood` the
drawn counts (`randint(3,5)`, `randint(1,3)`, `randint(1,3)`). -/
def initializeWorld (dishNames foodNames : List String)
    (numDirty numClean numFood : Nat) : GameState :=
  let s := initSeed numDirty
  let s := addObject s 1 0  -- world.addObject(self.agent)
  let s := pushObject s dishWasherEntity 1
  let s := pushObject s dishSoapBottleEntity 1
  let s := (List.range numDirty).foldl (fun t i =>
    let dishType := dishNames.getD (i % dishNames.length) ""
    let foodName := foodNames.getD (i % foodNames.length) ""
    pushObject t (fun n => dirtyDishEntity n dishType foodName (containerPrefixes dishType)) 1) s
  let s := (List.range numClean).foldl (fun t i =>
    let dishType := dishNames.getD ((i + numDirty) % dishNames.length) ""
    pushObject t (fun n => cleanDishEntity n dishType) 1) s
  (List.range numFood).foldl (fun t i =>
    let foodName := foodNames.getD ((i + numDirty) % foodNames.length) ""
    pushObject t (fun n => foodEntity n foodName) 1) s

/-- The rest of `TextGame.__init__`: initial observation and initial
scoring. -/
def newGame (dishNames foodNames : List String)
    (numDirty numClean numFood : Nat) : GameState :=
  let s := initializeWorld dishNames foodNames numDirty numClean numFood
  calculateScore (withObs s (makeDescriptionStr s s.rootId false))

/-!
## The `calculateScore` of `balance-scale-weigh.py` (cited by claim C6)
-/

/-- The fields of `balance-scale-weigh.py`'s `TextGame` that its
`calculateScore` touches. -/
structure BSState where
  score : Int
  gameOver : Bool
  gameWon : Bool
  answer_mass : Option Int
  cube_weight : Int
  deriving DecidableEq, Repr

/-- `TextGame.calculateScore` of `balance-scale-weigh.py`. -/
def bsCalculateScore (b : BSState) : BSState :=
  let b1 := { b with score := 0 }
  match b1.answer_mass with
  | none => b1
  | some m =>
      if b1.cube_weight = m then
        { b1 with score := b1.score + 1, gameOver := true, gameWon := true }
      else
        { b1 with score := 0, gameOver := true, gameWon := false }

/-!
## Well-formedness of the containment tree

`WF` is the structural invariant of §3 of the spec: parent pointers and
child lists mirror each other, child lists are duplicate-free, the root is
the parentless `World`.
-/

/-- Structural well-formedness of a game state. -/
structure WF (s : GameState) : Prop where
  root_lt : s.rootId < s.ents.length
  agent_lt : s.agentId < s.ents.length
  root_parent : (getEnt s s.rootId).parent = none
  root_kind : (getEnt s s.rootId).kind = .world
  mem_valid : ∀ i < s.ents.length, ∀ j ∈ (getEnt s i).contains, j < s.ents.length
  mem_parent : ∀ i < s.ents.length, ∀ j ∈ (getEnt s i).contains, (getEnt s j).parent = some i
  parent_mem : ∀ j < s.ents.length, ∀ p, (getEnt s j).parent = some p →
      p < s.ents.length ∧ j ∈ (getEnt s p).contains
  nodup : ∀ i < s.ents.length, ((getEnt s i).contains).Nodup

/-- Out-of-range ids dereference to the placeholder. -/
theorem getEnt_oob (s : GameState) (i : EId) (h : s.ents.length ≤ i) :
    getEnt s i = defaultEntity := by
  simp [getEnt, List.getElem?_eq_none h]

/-- A contained id is in range (else its parent pointer could not point back). -/
theorem lt_of_parent_some (s : GameState) {o : EId} {p : EId}
    (h : (getEnt s o).parent = some p) : o < s.ents.length := by
  by_contra hlt
  rw [getEnt_oob s o (Nat.le_of_not_lt hlt)] at h
  simp [defaultEntity] at h

@[simp] theorem length_setEnt (s : GameState) (i : EId) (e : Entity) :
    (setEnt s i e).ents.length = s.ents.length := by
  simp [setEnt]

@[simp] theorem length_modifyEnt (s : GameState) (i : EId) (f : Entity → Entity) :
    (modifyEnt s i f).ents.length = s.ents.length := by
  simp [modifyEnt]

theorem getEnt_setEnt_self (s : GameState) (i : EId) (e : Entity)
    (h : i < s.ents.length) : getEnt (setEnt s i e) i = e := by
  simp [getEnt, setEnt, List.getElem?_set, h]

theorem getEnt_setEnt_ne (s : GameState) (i j : EId) (e : Entity) (h : i ≠ j) :
    getEnt (setEnt s i e) j = getEnt s j := by
  simp [getEnt, setEnt, List.getElem?_set_ne h]

theorem setEnt_oob (s : GameState) (i : EId) (e : Entity)
    (h : s.ents.length ≤ i) : setEnt s i e = s := by
  simp [setEnt, List.set_eq_of_length_le h]

theorem getEnt_modifyEnt_self (s : GameState) (i : EId) (f : Entity → Entity)
    (h : i < s.ents.length) : getEnt (modifyEnt s i f) i = f (getEnt s i) :=
  getEnt_setEnt_self s i _ h

theorem getEnt_modifyEnt_ne (s : GameState) (i j : EId) (f : Entity → Entity)
    (h : i ≠ j) : getEnt (modifyEnt s i f) j = getEnt s j :=
  getEnt_setEnt_ne s i j _ h

theorem modifyEnt_oob (s : GameState) (i : EId) (f : Entity → Entity)
    (h : s.ents.length ≤ i) : modifyEnt s i f = s :=
  setEnt_oob s i _ h

@[simp] theorem agentId_setEnt (s : GameState) (i : EId) (e : Entity) :
    (setEnt s i e).agentId = s.agentId := rfl

@[simp] theorem rootId_setEnt (s : GameState) (i : EId) (e : Entity) :
    (setEnt s i e).rootId = s.rootId := rfl

/-!
### Effect of the tree primitives on each entity
-/

theorem removeObject_parent (s : GameState) (c o : EId) (hc : c < s.ents.length)
    (j : EId) : (getEnt (removeObject s c o) j).parent =
      if j = o then none else (getEnt s j).parent := by
  unfold removeObject
  by_cases jo : j = o
  · subst jo
    by_cases hj : j < s.ents.length
    · rw [getEnt_modifyEnt_self _ _ _ (by simpa using hj)]
      simp
    · rw [getEnt_oob _ j (by simpa using Nat.le_of_not_lt hj)]
      simp [defaultEntity]
  · rw [getEnt_modifyEnt_ne _ _ _ _ (fun h => jo h.symm)]
    by_cases jc : j = c
    · subst jc
      rw [getEnt_modifyEnt_self _ _ _ hc]
      simp [jo]
    · rw [getEnt_modifyEnt_ne _ _ _ _ (fun h => jc h.symm)]
      simp [jo]

theorem removeObject_contains (s : GameState) (c o : EId) (hc : c < s.ents.length)
    (j : EId) : (getEnt (removeObject s c o) j).contains =
      if j = c then ((getEnt s c).contains).erase o else (getEnt s j).contains := by
  unfold removeObject
  by_cases jo : j = o
  · subst jo
    by_cases hj : j < s.ents.length
    · rw [getEnt_modifyEnt_self _ _ _ (by simpa using hj)]
      by_cases jc : j = c
      · subst jc; rw [getEnt_modifyEnt_self _ _ _ hc]; simp
      · rw [getEnt_modifyEnt_ne _ _ _ _ (fun h => jc h.symm)]; simp [jc]
    · rw [getEnt_oob _ j (by simpa using Nat.le_of_not_lt hj)]
      have hj' := Nat.le_of_not_lt hj
      by_cases jc : j = c
      · exact absurd (jc ▸ hc) hj
      · rw [getEnt_oob _ j hj', defaultEntity] at *
        simp [jc, getEnt_oob s j hj', defaultEntity]
  · rw [getEnt_modifyEnt_ne _ _ _ _ (fun h => jo h.symm)]
    by_cases jc : j = c
    · subst jc; rw [getEnt_modifyEnt_self _ _ _ hc]; simp
    · rw [getEnt_modifyEnt_ne _ _ _ _ (fun h => jc h.symm)]; simp [jc]

theorem removeObject_kind (s : GameState) (c o : EId) (j : EId) :
    (getEnt (removeObject s c o) j).kind = (getEnt s j).kind := by
  unfold removeObject
  by_cases jo : j = o
  · subst jo
    by_cases hj : j < s.ents.length
    · rw [getEnt_modifyEnt_self _ _ _ (by simpa using hj)]
      by_cases jc : j = c
      · subst jc; rw [getEnt_modifyEnt_self _ _ _ hj]
      · rw [getEnt_modifyEnt_ne _ _ _ _ (fun h => jc h.symm)]
    · rw [getEnt_oob _ j (by simpa using Nat.le_of_not_lt hj),
        getEnt_oob s j (Nat.le_of_not_lt hj)]
  · rw [getEnt_modifyEnt_ne _ _ _ _ (fun h => jo h.symm)]
    by_cases jc : j = c
    · subst jc
      by_cases hc : j < s.ents.length
      · rw [getEnt_modifyEnt_self _ _ _ hc]
      · rw [modifyEnt_oob _ _ _ (Nat.le_of_not_lt hc)]
    · rw [getEnt_modifyEnt_ne _ _ _ _ (fun h => jc h.symm)]

theorem removeObject_props (s : GameState) (c o : EId) (j : EId) :
    (getEnt (removeObject s c o) j).props = (getEnt s j).props := by
  unfold removeObject
  by_cases jo : j = o
  · subst jo
    by_cases hj : j < s.ents.length
    · rw [getEnt_modifyEnt_self _ _ _ (by simpa using hj)]
      by_cases jc : j = c
      · subst jc; rw [getEnt_modifyEnt_self _ _ _ hj]
      · rw [getEnt_modifyEnt_ne _ _ _ _ (fun h => jc h.symm)]
    · rw [getEnt_oob _ j (by simpa using Nat.le_of_not_lt hj),
        getEnt_oob s j (Nat.le_of_not_lt hj)]
  · rw [getEnt_modifyEnt_ne _ _ _ _ (fun h => jo h.symm)]
    by_cases jc : j = c
    · subst jc
      by_cases hc : j < s.ents.length
      · rw [getEnt_modifyEnt_self _ _ _ hc]
      · rw [modifyEnt_oob _ _ _ (Nat.le_of_not_lt hc)]
    · rw [getEnt_modifyEnt_ne _ _ _ _ (fun h => jc h.symm)]

/-- A heap edit that does not touch the field read by `g` leaves every
`g`-reading unchanged. -/
theorem getEnt_modify_preserve {β : Type} (s : GameState) (i : EId)
    (f : Entity → Entity) (j : EId) (g : Entity → β) (hf : ∀ e, g (f e) = g e) :
    g (getEnt (modifyEnt s i f) j) = g (getEnt s j) := by
  by_cases hij : i = j
  · subst hij
    by_cases hi : i < s.ents.length
    · rw [getEnt_modifyEnt_self _ _ _ hi, hf]
    · rw [modifyEnt_oob _ _ _ (Nat.le_of_not_lt hi)]
  · rw [getEnt_modifyEnt_ne _ _ _ _ hij]

theorem removeSelf_parent (s : GameState) (o : EId) (h : WF s) (j : EId) :
    (getEnt (removeSelfFromContainer s o) j).parent =
      if j = o then none else (getEnt s j).parent := by
  unfold removeSelfFromContainer
  cases hp : (getEnt s o).parent with
  | none =>
      by_cases jo : j = o
      · subst jo; simp [hp]
      · simp [jo]
  | some p =>
      have ho : o < s.ents.length := lt_of_parent_some s hp
      have hpl : p < s.ents.length := (h.parent_mem o ho p hp).1
      rw [removeObject_parent s p o hpl j]

theorem removeSelf_contains (s : GameState) (o : EId) (h : WF s) (j : EId) :
    (getEnt (removeSelfFromContainer s o) j).contains =
      ((getEnt s j).contains).erase o := by
  unfold removeSelfFromContainer
  cases hp : (getEnt s o).parent with
  | none =>
      -- o is in no child list, so the erase is a no-op
      have : o ∉ (getEnt s j).contains := by
        intro hmem
        by_cases hj : j < s.ents.length
        · exact absurd (h.mem_parent j hj o hmem) (by simp [hp])
        · rw [getEnt_oob s j (Nat.le_of_not_lt hj)] at hmem
          simp [defaultEntity] at hmem
      rw [List.erase_of_not_mem this]
  | some p =>
      have ho : o < s.ents.length := lt_of_parent_some s hp
      have hpl : p < s.ents.length := (h.parent_mem o ho p hp).1
      rw [removeObject_contains s p o hpl j]
      by_cases jp : j = p
      · subst jp; simp
      · -- o is only in p's list
        have : o ∉ (getEnt s j).contains := by
          intro hmem
          by_cases hj : j < s.ents.length
          · have := h.mem_parent j hj o hmem
            rw [hp] at this
            exact jp (Option.some.inj this).symm
          · rw [getEnt_oob s j (Nat.le_of_not_lt hj)] at hmem
            simp [defaultEntity] at hmem
        rw [if_neg jp, List.erase_of_not_mem this]

theorem removeSelf_kind (s : GameState) (o : EId) (j : EId) :
    (getEnt (removeSelfFromContainer s o) j).kind = (getEnt s j).kind := by
  unfold removeSelfFromContainer
  cases hp : (getEnt s o).parent with
  | none => rfl
  | some p => exact removeObject_kind s p o j

theorem removeSelf_props (s : GameState) (o : EId) (j : EId) :
    (getEnt (removeSelfFromContainer s o) j).props = (getEnt s j).props := by
  unfold removeSelfFromContainer
  cases hp : (getEnt s o).parent with
  | none => rfl
  | some p => exact removeObject_props s p o j

@[simp] theorem length_removeSelf (s : GameState) (o : EId) :
    (removeSelfFromContainer s o).ents.length = s.ents.length := by
  unfold removeSelfFromContainer
  cases (getEnt s o).parent with
  | none => rfl
  | some p => simp [removeObject]

@[simp] theorem rootId_removeSelf (s : GameState) (o : EId) :
    (removeSelfFromContainer s o).rootId = s.rootId := by
  unfold removeSelfFromContainer
  cases (getEnt s o).parent with
  | none => rfl
  | some p => rfl

@[simp] theorem agentId_removeSelf (s : GameState) (o : EId) :
    (removeSelfFromContainer s o).agentId = s.agentId := by
  unfold removeSelfFromContainer
  cases (getEnt s o).parent with
  | none => rfl
  | some p => rfl

/-- After `removeSelfFromContainer`, `o` sits in no child list. -/
theorem removeSelf_detached (s : GameState) (o : EId) (h : WF s) (j : EId) :
    o ∉ (getEnt (removeSelfFromContainer s o) j).contains := by
  rw [removeSelf_contains s o h j]
  by_cases hj : j < s.ents.length
  · exact (h.nodup j hj).not_mem_erase
  · rw [getEnt_oob s j (Nat.le_of_not_lt hj)]
    simp [defaultEntity]

/-- `removeSelfFromContainer` preserves well-formedness. -/
theorem WF_removeSelf (s : GameState) (o : EId) (h : WF s) :
    WF (removeSelfFromContainer s o) := by
  have hpar := removeSelf_parent s o h
  have hcon := removeSelf_contains s o h
  have hkind := removeSelf_kind s o
  have hlen : (removeSelfFromContainer s o).ents.length = s.ents.length :=
    length_removeSelf s o
  have hroot : (removeSelfFromContainer s o).rootId = s.rootId := rootId_removeSelf s o
  have hagent : (removeSelfFromContainer s o).agentId = s.agentId := agentId_removeSelf s o
  have horoot : s.rootId = o → (getEnt s o).parent = none := by
    intro he; rw [← he]; exact h.root_parent
  constructor
  · rw [hlen, hroot]; exact h.root_lt
  · rw [hlen, hagent]; exact h.agent_lt
  · rw [hroot, hpar]
    by_cases hro : s.rootId = o
    · simp [hro]
    · simp [hro, h.root_parent]
  · rw [hroot, hkind]; exact h.root_kind
  · intro i hi j hj
    rw [hlen] at hi
    rw [hcon] at hj
    rw [hlen]
    exact h.mem_valid i hi j (List.mem_of_mem_erase hj)
  · intro i hi j hj
    rw [hlen] at hi
    rw [hcon] at hj
    have hj' : j ∈ (getEnt s i).contains := List.mem_of_mem_erase hj
    have hjo : j ≠ o := (((h.nodup i hi).mem_erase_iff).mp hj).1
    rw [hpar, if_neg hjo]
    exact h.mem_parent i hi j hj'
  · intro j hj p hp
    rw [hlen] at hj
    rw [hpar] at hp
    by_cases hjo : j = o
    · rw [if_pos hjo] at hp; exact absurd hp (by simp)
    · rw [if_neg hjo] at hp
      obtain ⟨hpl, hpm⟩ := h.parent_mem j hj p hp
      refine ⟨by rw [hlen]; exact hpl, ?_⟩
      rw [hcon]
      exact (List.mem_erase_of_ne hjo).mpr hpm
  · intro i hi
    rw [hlen] at hi
    rw [hcon]
    exact (h.nodup i hi).erase o

theorem addObject_parent (s : GameState) (c o : EId) (h : WF s)
    (hc : c < s.ents.length) (ho : o < s.ents.length) (j : EId) :
    (getEnt (addObject s c o) j).parent =
      if j = o then some c else (getEnt s j).parent := by
  unfold addObject
  by_cases hjo : j = o
  · subst hjo
    rw [getEnt_modifyEnt_self _ _ _ (by simpa using ho)]
    simp
  · rw [getEnt_modifyEnt_ne _ _ _ _ (fun e => hjo e.symm)]
    rw [getEnt_modify_preserve _ c (fun e => { e with contains := e.contains ++ [o] }) j
      (fun e => e.parent) (fun e => rfl)]
    rw [removeSelf_parent s o h j, if_neg hjo]
    simp [hjo]

theorem addObject_contains (s : GameState) (c o : EId) (h : WF s)
    (hc : c < s.ents.length) (j : EId) :
    (getEnt (addObject s c o) j).contains =
      if j = c then ((getEnt s c).contains).erase o ++ [o]
      else ((getEnt s j).contains).erase o := by
  unfold addObject
  rw [getEnt_modify_preserve _ o (fun e => { e with parent := some c }) j
    (fun e => e.contains) (fun e => rfl)]
  by_cases hjc : j = c
  · subst hjc
    rw [getEnt_modifyEnt_self _ _ _ (by simpa using hc)]
    simp [removeSelf_contains s o h j]
  · rw [getEnt_modifyEnt_ne _ _ _ _ (fun e => hjc e.symm)]
    rw [removeSelf_contains s o h j, if_neg hjc]

theorem addObject_kind (s : GameState) (c o : EId) (j : EId) :
    (getEnt (addObject s c o) j).kind = (getEnt s j).kind := by
  unfold addObject
  rw [getEnt_modify_preserve _ o (fun e => { e with parent := some c }) j
    (fun e => e.kind) (fun e => rfl)]
  rw [getEnt_modify_preserve _ c (fun e => { e with contains := e.contains ++ [o] }) j
    (fun e => e.kind) (fun e => rfl)]
  exact removeSelf_kind s o j

theorem addObject_props (s : GameState) (c o : EId) (j : EId) :
    (getEnt (addObject s c o) j).props = (getEnt s j).props := by
  unfold addObject
  rw [getEnt_modify_preserve _ o (fun e => { e with parent := some c }) j
    (fun e => e.props) (fun e => rfl)]
  rw [getEnt_modify_preserve _ c (fun e => { e with contains := e.contains ++ [o] }) j
    (fun e => e.props) (fun e => rfl)]
  exact removeSelf_props s o j

@[simp] theorem length_addObject (s : GameState) (c o : EId) :
    (addObject s c o).ents.length = s.ents.length := by
  simp [addObject]

@[simp] theorem rootId_addObject (s : GameState) (c o : EId) :
    (addObject s c o).rootId = s.rootId := by
  simp [addObject, modifyEnt, setEnt]

@[simp] theorem agentId_addObject (s : GameState) (c o : EId) :
    (addObject s c o).agentId = s.agentId := by
  simp [addObject, modifyEnt, setEnt]

/-- `addObject` preserves well-formedness (for any in-range container and
any in-range non-root object). -/
theorem WF_addObject (s : GameState) (c o : EId) (h : WF s)
    (hc : c < s.ents.length) (ho : o < s.ents.length)
    (hor : o ≠ s.rootId) : WF (addObject s c o) := by
  have hpar := addObject_parent s c o h hc ho
  have hcon := addObject_contains s c o h hc
  have hkind := addObject_kind s c o
  constructor
  · simpa using h.root_lt
  · simpa using h.agent_lt
  · rw [rootId_addObject, hpar, if_neg (fun e => hor e.symm)]
    exact h.root_parent
  · rw [rootId_addObject, hkind]; exact h.root_kind
  · intro i hi j hj
    rw [length_addObject] at hi ⊢
    rw [hcon] at hj
    by_cases hic : i = c
    · rw [if_pos hic] at hj
      rcases List.mem_append.mp hj with hj | hj
      · exact h.mem_valid c hc j (List.mem_of_mem_erase hj)
      · simp at hj; subst hj; exact ho
    · rw [if_neg hic] at hj
      exact h.mem_valid i hi j (List.mem_of_mem_erase hj)
  · intro i hi j hj
    rw [length_addObject] at hi
    rw [hcon] at hj
    rw [hpar]
    by_cases hic : i = c
    · rw [if_pos hic] at hj
      rcases List.mem_append.mp hj with hj | hj
      · have := ((h.nodup c hc).mem_erase_iff).mp hj
        rw [if_neg this.1, hic]
        exact h.mem_parent c hc j this.2
      · simp at hj; subst hj; simp [hic]
    · rw [if_neg hic] at hj
      have := ((h.nodup i hi).mem_erase_iff).mp hj
      rw [if_neg this.1]
      exact h.mem_parent i hi j this.2
  · intro j hj p hp
    rw [length_addObject] at hj
    rw [hpar] at hp
    by_cases hjo : j = o
    · rw [if_pos hjo] at hp
      obtain rfl : c = p := Option.some.inj hp
      refine ⟨by simpa using hc, ?_⟩
      rw [hcon, if_pos rfl]
      simp [hjo]
    · rw [if_neg hjo] at hp
      obtain ⟨hpl, hpm⟩ := h.parent_mem j hj p hp
      refine ⟨by simpa using hpl, ?_⟩
      rw [hcon]
      by_cases hpc : p = c
      · rw [if_pos hpc]
        exact List.mem_append.mpr (.inl ((List.mem_erase_of_ne hjo).mpr (hpc ▸ hpm)))
      · rw [if_neg hpc]
        exact (List.mem_erase_of_ne hjo).mpr hpm
  · intro i hi
    rw [length_addObject] at hi
    rw [hcon]
    by_cases hic : i = c
    · rw [if_pos hic]
      refine List.Nodup.append ((h.nodup c hc).erase o) (List.nodup_singleton o) ?_
      intro a ha hb
      simp at hb; subst hb
      exact (h.nodup c hc).not_mem_erase ha
    · rw [if_neg hic]
      exact (h.nodup i hi).erase o

/-!
### The engine fields no handler writes

`metaOf` collects the `TextGame` fields that only `calculateScore` (score,
flags) or `__init__` may write.  Every action handler and the world tick
leave them unchanged; this is the algebra behind claims C5 and C6.
-/

/-- The handler-invariant engine fields. -/
def metaOf (s : GameState) : EId × EId × Int × Bool × Bool × Nat :=
  (s.agentId, s.rootId, s.score, s.gameOver, s.gameWon, s.numStartingDirtyDishes)

@[simp] theorem metaOf_setEnt (s : GameState) (i : EId) (e : Entity) :
    metaOf (setEnt s i e) = metaOf s := rfl

@[simp] theorem metaOf_modifyEnt (s : GameState) (i : EId) (f : Entity → Entity) :
    metaOf (modifyEnt s i f) = metaOf s := rfl

@[simp] theorem metaOf_withObs (s : GameState) (m : String) :
    metaOf (withObs s m) = metaOf s := rfl

@[simp] theorem metaOf_removeObject (s : GameState) (c o : EId) :
    metaOf (removeObject s c o) = metaOf s := rfl

@[simp] theorem metaOf_removeSelf (s : GameState) (o : EId) :
    metaOf (removeSelfFromContainer s o) = metaOf s := by
  unfold removeSelfFromContainer
  cases (getEnt s o).parent <;> rfl

@[simp] theorem metaOf_addObject (s : GameState) (c o : EId) :
    metaOf (addObject s c o) = metaOf s := by
  unfold addObject
  simp

theorem metaOf_foldl (l : List EId) (f : GameState → EId → GameState)
    (hf : ∀ t o, metaOf (f t o) = metaOf t) :
    ∀ s : GameState, metaOf (l.foldl f s) = metaOf s := by
  induction l with
  | nil => intro s; rfl
  | cons x xs ih => intro s; rw [List.foldl_cons, ih, hf]

@[simp] theorem metaOf_openContainer (s : GameState) (i : EId) :
    metaOf (openContainer s i).state = metaOf s := by
  simp only [openContainer]
  split <;> (try split) <;> simp

@[simp] theorem metaOf_closeContainer (s : GameState) (i : EId) :
    metaOf (closeContainer s i).state = metaOf s := by
  simp only [closeContainer]
  split <;> (try split) <;> simp

@[simp] theorem metaOf_placeObjectInContainer (s : GameState) (c o : EId) :
    metaOf (placeObjectInContainer s c o).state = metaOf s := by
  simp only [placeObjectInContainer]
  split <;> (try split) <;> (try split) <;> simp

@[simp] theorem metaOf_takeObjectFromContainer (s : GameState) (c o : EId) :
    metaOf (takeObjectFromContainer s c o).state = metaOf s := by
  simp only [takeObjectFromContainer]
  split <;> (try split) <;> (try split) <;> (try split) <;> simp

@[simp] theorem metaOf_deviceTurnOn (s : GameState) (i : EId) :
    metaOf (deviceTurnOn s i).state = metaOf s := by
  simp only [deviceTurnOn]
  split <;> (try split) <;> simp

@[simp] theorem metaOf_deviceTurnOff (s : GameState) (i : EId) :
    metaOf (deviceTurnOff s i).state = metaOf s := by
  simp only [deviceTurnOff]
  split <;> (try split) <;> simp

@[simp] theorem metaOf_dishWasherTurnOn (s : GameState) (i : EId) :
    metaOf (dishWasherTurnOn s i).state = metaOf s := by
  simp only [dishWasherTurnOn]
  split <;> simp

@[simp] theorem metaOf_turnOnDispatch (s : GameState) (i : EId) :
    metaOf (turnOnDispatch s i).state = metaOf s := by
  simp only [turnOnDispatch]
  split <;> simp

@[simp] theorem metaOf_useWithObject (s : GameState) (d p : EId) :
    metaOf (useWithObject s d p).state = metaOf s := by
  simp only [useWithObject]
  split <;> (try split) <;> (try split) <;> (try simp) <;> (try rfl)

@[simp] theorem metaOf_actionInventory (s : GameState) :
    metaOf (actionInventory s) = metaOf s := by
  simp only [actionInventory]
  split <;> simp

@[simp] theorem metaOf_actionEat (s : GameState) (o d : EId) :
    metaOf (actionEat s o d) = metaOf s := by
  simp only [actionEat]
  split <;> (try split) <;> (try split) <;> (try split) <;> (try split) <;>
    (try simp) <;> (try rfl)

@[simp] theorem metaOf_actionOpen (s : GameState) (o : EId) :
    metaOf (actionOpen s o) = metaOf s := by
  simp only [actionOpen]
  split <;> simp

@[simp] theorem metaOf_actionClose (s : GameState) (o : EId) :
    metaOf (actionClose s o) = metaOf s := by
  simp only [actionClose]
  split <;> simp

@[simp] theorem metaOf_actionTake (s : GameState) (o : EId) :
    metaOf (actionTake s o) = metaOf s := by
  simp only [actionTake]
  split <;> (try split) <;> (try split) <;> (try simp) <;> (try rfl)

@[simp] theorem metaOf_actionPut (s : GameState) (o c : EId) :
    metaOf (actionPut s o c) = metaOf s := by
  simp only [actionPut]
  split <;> (try split) <;> (try split) <;> (try split) <;> (try simp) <;> (try rfl)

@[simp] theorem metaOf_actionTurnOn (s : GameState) (o : EId) :
    metaOf (actionTurnOn s o) = metaOf s := by
  simp only [actionTurnOn]
  split <;> simp

@[simp] theorem metaOf_actionTurnOff (s : GameState) (o : EId) :
    metaOf (actionTurnOff s o) = metaOf s := by
  simp only [actionTurnOff]
  split <;> simp

@[simp] theorem metaOf_actionUse (s : GameState) (d p : EId) :
    metaOf (actionUse s d p) = metaOf s := by
  simp only [actionUse]
  split <;> simp

@[simp] theorem metaOf_applyAction (s : GameState) (a : GAction) :
    metaOf (applyAction s a) = metaOf s := by
  cases a <;> simp [applyAction]

/-- No action handler (nor the unknown-command path) writes the engine's
score/flag fields. -/
theorem metaOf_step_action (s : GameState) (actionStr : String) :
    metaOf (step_action s actionStr) = metaOf s := by
  simp only [step_action]
  split
  · rfl
  · split
    · rw [metaOf_applyAction]; rfl
    · rfl

@[simp] theorem metaOf_makeClean (s : GameState) (o : EId) :
    metaOf (makeClean s o) = metaOf s := rfl

@[simp] theorem metaOf_dishWasherTick (s : GameState) (w : EId) :
    metaOf (dishWasherTick s w) = metaOf s := by
  simp only [dishWasherTick]
  split <;> (try split) <;> (try split) <;> (try split) <;> (try split) <;>
    (try simp) <;>
    (try rw [metaOf_foldl _ _ (fun t o => by split <;> simp)]) <;>
    (try rw [metaOf_foldl _ _ (fun t o => by split <;> simp)]) <;>
    (try simp) <;> (try rfl)

@[simp] theorem metaOf_tickOne (s : GameState) (i : EId) :
    metaOf (tickOne s i) = metaOf s := by
  simp only [tickOne]
  split <;> simp

/-- The world tick writes no engine score/flag field either. -/
theorem metaOf_doWorldTick (s : GameState) :
    metaOf (doWorldTick s) = metaOf s := by
  unfold doWorldTick
  exact metaOf_foldl _ _ (fun t o => metaOf_tickOne t o) s

theorem score_of_metaOf {s t : GameState} (h : metaOf t = metaOf s) :
    t.score = s.score := congrArg (fun x => x.2.2.1) h

theorem gameOver_of_metaOf {s t : GameState} (h : metaOf t = metaOf s) :
    t.gameOver = s.gameOver := congrArg (fun x => x.2.2.2.1) h

theorem gameWon_of_metaOf {s t : GameState} (h : metaOf t = metaOf s) :
    t.gameWon = s.gameWon := congrArg (fun x => x.2.2.2.2.1) h

theorem agentId_of_metaOf {s t : GameState} (h : metaOf t = metaOf s) :
    t.agentId = s.agentId := congrArg (fun x => x.1) h

theorem rootId_of_metaOf {s t : GameState} (h : metaOf t = metaOf s) :
    t.rootId = s.rootId := congrArg (fun x => x.2.1) h

/-- `calculateScore` rescans the tree but never edits it. -/
theorem calculateScore_ents (s : GameState) : (calculateScore s).ents = s.ents := by
  simp only [calculateScore]
  split <;> rfl

theorem calculateScore_rootId (s : GameState) :
    (calculateScore s).rootId = s.rootId := by
  simp only [calculateScore]
  split <;> rfl

theorem calculateScore_agentId (s : GameState) :
    (calculateScore s).agentId = s.agentId := by
  simp only [calculateScore]
  split <;> rfl

theorem calculateScore_numSteps (s : GameState) :
    (calculateScore s).numSteps = s.numSteps := by
  simp only [calculateScore]
  split <;> rfl

theorem calculateScore_observationStr (s : GameState) :
    (calculateScore s).observationStr = s.observationStr := by
  simp only [calculateScore]
  split <;> rfl

/-- `calculateScore` of `dishwasher.py` writes `gameOver` only to `True`. -/
theorem calculateScore_gameOver_latch (s : GameState) (h : s.gameOver = true) :
    (calculateScore s).gameOver = true := by
  simp only [calculateScore]
  split <;> simp [h]

theorem calculateScore_gameWon_latch (s : GameState) (h : s.gameWon = true) :
    (calculateScore s).gameWon = true := by
  simp only [calculateScore]
  split <;> simp [h]

/-- Ids whose entity is a container are in range (the placeholder is not a
container). -/
theorem lt_of_isContainer (s : GameState) {c : EId}
    (h : (getEnt s c).props.isContainer = true) : c < s.ents.length := by
  by_contra hlt
  rw [getEnt_oob s c (Nat.le_of_not_lt hlt)] at h
  simp [defaultEntity] at h

/-- Ids whose entity is moveable are in range. -/
theorem lt_of_isMoveable (s : GameState) {o : EId}
    (h : (getEnt s o).props.isMoveable = true) : o < s.ents.length := by
  by_contra hlt
  rw [getEnt_oob s o (Nat.le_of_not_lt hlt)] at h
  simp [defaultEntity] at h

/-!
### Success/failure characterizations of the Container methods
-/

/-- A failing `placeObjectInContainer` performs no mutation. -/
theorem place_fail_state (s : GameState) (c o : EId)
    (h : (placeObjectInContainer s c o).success = false) :
    (placeObjectInContainer s c o).state = s := by
  simp only [placeObjectInContainer] at *
  split at h <;> (try split at h) <;> (try split at h) <;> simp_all

/-- `placeObjectInContainer` succeeds exactly when the receiver is an open
container and the object is moveable, and then the single mutation is the
`addObject` reparent. -/
theorem place_success_iff (s : GameState) (c o : EId) :
    (placeObjectInContainer s c o).success = true ↔
      ((getEnt s c).props.isContainer = true ∧ (getEnt s o).props.isMoveable = true ∧
        (getEnt s c).props.isOpen = some true) := by
  simp only [placeObjectInContainer]
  split <;> (try split) <;> (try split) <;> simp_all

theorem place_success_state (s : GameState) (c o : EId)
    (h : (placeObjectInContainer s c o).success = true) :
    (placeObjectInContainer s c o).state = addObject s c o := by
  simp only [placeObjectInContainer] at *
  split at h <;> (try split at h) <;> (try split at h) <;> simp_all

/-- A failing `takeObjectFromContainer` performs no mutation. -/
theorem take_fail_state (s : GameState) (c o : EId)
    (h : (takeObjectFromContainer s c o).success = false) :
    (takeObjectFromContainer s c o).state = s := by
  simp only [takeObjectFromContainer] at *
  split at h <;> (try split at h) <;> (try split at h) <;> (try split at h) <;> simp_all

/-- `takeObjectFromContainer` succeeds exactly when the receiver is an open
container, the object is moveable, and the object is among the receiver's
children; the single mutation is the detach. -/
theorem take_success_iff (s : GameState) (c o : EId) :
    (takeObjectFromContainer s c o).success = true ↔
      ((getEnt s c).props.isContainer = true ∧ (getEnt s o).props.isMoveable = true ∧
        (getEnt s c).props.isOpen = some true ∧ o ∈ (getEnt s c).contains) := by
  simp only [takeObjectFromContainer]
  split <;> (try split) <;> (try split) <;> (try split) <;> simp_all

theorem take_success_state (s : GameState) (c o : EId)
    (h : (takeObjectFromContainer s c o).success = true) :
    (takeObjectFromContainer s c o).state = removeSelfFromContainer s o := by
  simp only [takeObjectFromContainer] at *
  split at h <;> (try split at h) <;> (try split at h) <;> (try split at h) <;> simp_all

/-!
### Well-formedness preservation
-/

theorem getEnt_congr {s t : GameState} (he : t.ents = s.ents) (i : EId) :
    getEnt t i = getEnt s i := by
  simp [getEnt, he]

/-- `WF` only reads `ents`, `rootId` and `agentId`. -/
theorem WF_of_eq {s t : GameState} (h : WF s) (he : t.ents = s.ents)
    (hr : t.rootId = s.rootId) (ha : t.agentId = s.agentId) : WF t := by
  have hg : ∀ i, getEnt t i = getEnt s i := getEnt_congr he
  have hl : t.ents.length = s.ents.length := by rw [he]
  constructor
  · rw [hl, hr]; exact h.root_lt
  · rw [hl, ha]; exact h.agent_lt
  · rw [hr, hg]; exact h.root_parent
  · rw [hr, hg]; exact h.root_kind
  · intro i hi j hj
    rw [hl] at hi ⊢
    rw [hg] at hj
    exact h.mem_valid i hi j hj
  · intro i hi j hj
    rw [hl] at hi
    rw [hg] at hj
    rw [hg]
    exact h.mem_parent i hi j hj
  · intro j hj p hp
    rw [hl] at hj
    rw [hg] at hp
    obtain ⟨h1, h2⟩ := h.parent_mem j hj p hp
    exact ⟨by rw [hl]; exact h1, by rw [hg]; exact h2⟩
  · intro i hi
    rw [hl] at hi
    rw [hg]
    exact h.nodup i hi

theorem WF_withObs (s : GameState) (m : String) (h : WF s) : WF (withObs s m) :=
  WF_of_eq h rfl rfl rfl

/-- Editing only the property bag of one entity preserves well-formedness. -/
theorem WF_modify_props (s : GameState) (i : EId) (f : Entity → Entity)
    (hp : ∀ e, (f e).parent = e.parent) (hcn : ∀ e, (f e).contains = e.contains)
    (hk : ∀ e, (f e).kind = e.kind) (h : WF s) : WF (modifyEnt s i f) := by
  have hpar : ∀ j, (getEnt (modifyEnt s i f) j).parent = (getEnt s j).parent :=
    fun j => getEnt_modify_preserve s i f j (fun e => e.parent) hp
  have hcon : ∀ j, (getEnt (modifyEnt s i f) j).contains = (getEnt s j).contains :=
    fun j => getEnt_modify_preserve s i f j (fun e => e.contains) hcn
  have hkind : ∀ j, (getEnt (modifyEnt s i f) j).kind = (getEnt s j).kind :=
    fun j => getEnt_modify_preserve s i f j (fun e => e.kind) hk
  constructor
  · simpa using h.root_lt
  · simpa using h.agent_lt
  · rw [show (modifyEnt s i f).rootId = s.rootId from rfl, hpar]; exact h.root_parent
  · rw [show (modifyEnt s i f).rootId = s.rootId from rfl, hkind]; exact h.root_kind
  · intro a ha j hj
    rw [length_modifyEnt] at ha ⊢
    rw [hcon] at hj
    exact h.mem_valid a ha j hj
  · intro a ha j hj
    rw [length_modifyEnt] at ha
    rw [hcon] at hj
    rw [hpar]
    exact h.mem_parent a ha j hj
  · intro j hj p hpp
    rw [length_modifyEnt] at hj
    rw [hpar] at hpp
    obtain ⟨h1, h2⟩ := h.parent_mem j hj p hpp
    exact ⟨by simpa using h1, by rw [hcon]; exact h2⟩
  · intro a ha
    rw [length_modifyEnt] at ha
    rw [hcon]
    exact h.nodup a ha

/-- Appending a fresh parentless, childless entity preserves
well-formedness. -/
theorem WF_appendFresh (s : GameState) (e : Entity) (hp : e.parent = none)
    (hcn : e.contains = []) (h : WF s) :
    WF { s with ents := s.ents ++ [e] } := by
  set t : GameState := { s with ents := s.ents ++ [e] } with ht
  have hl : t.ents.length = s.ents.length + 1 := by simp [ht]
  have hg : ∀ i, i < s.ents.length → getEnt t i = getEnt s i := by
    intro i hi
    simp [getEnt, ht, List.getElem?_append, hi]
  have hgn : getEnt t s.ents.length = e := by
    simp [getEnt, ht, List.getElem?_concat_length]
  constructor
  · rw [hl]; exact Nat.lt_succ_of_lt h.root_lt
  · rw [hl]; exact Nat.lt_succ_of_lt h.agent_lt
  · rw [show t.rootId = s.rootId from rfl, hg _ h.root_lt]; exact h.root_parent
  · rw [show t.rootId = s.rootId from rfl, hg _ h.root_lt]; exact h.root_kind
  · intro i hi j hj
    rw [hl] at hi ⊢
    rcases Nat.lt_succ_iff_lt_or_eq.mp hi with hi | hi
    · rw [hg i hi] at hj
      exact Nat.lt_succ_of_lt (h.mem_valid i hi j hj)
    · subst hi; rw [hgn, hcn] at hj; simp at hj
  · intro i hi j hj
    rw [hl] at hi
    rcases Nat.lt_succ_iff_lt_or_eq.mp hi with hi | hi
    · rw [hg i hi] at hj
      have hjl := h.mem_valid i hi j hj
      rw [hg j hjl]
      exact h.mem_parent i hi j hj
    · subst hi; rw [hgn, hcn] at hj; simp at hj
  · intro j hj p hp'
    rw [hl] at hj
    rcases Nat.lt_succ_iff_lt_or_eq.mp hj with hj | hj
    · rw [hg j hj] at hp'
      obtain ⟨h1, h2⟩ := h.parent_mem j hj p hp'
      exact ⟨by rw [hl]; exact Nat.lt_succ_of_lt h1, by rw [hg p h1]; exact h2⟩
    · subst hj; rw [hgn, hp] at hp'; simp at hp'
  · intro i hi
    rw [hl] at hi
    rcases Nat.lt_succ_iff_lt_or_eq.mp hi with hi | hi
    · rw [hg i hi]; exact h.nodup i hi
    · subst hi; rw [hgn, hcn]; exact List.nodup_nil

theorem WF_openContainer (s : GameState) (i : EId) (h : WF s) :
    WF (openContainer s i).state := by
  simp only [openContainer]
  split
  · exact h
  · split
    · exact h
    · dsimp only
      exact WF_modify_props s i _ (fun e => rfl) (fun e => rfl) (fun e => rfl) h

theorem WF_closeContainer (s : GameState) (i : EId) (h : WF s) :
    WF (closeContainer s i).state := by
  simp only [closeContainer]
  split
  · exact h
  · split
    · exact h
    · dsimp only
      exact WF_modify_props s i _ (fun e => rfl) (fun e => rfl) (fun e => rfl) h

theorem WF_deviceTurnOn (s : GameState) (i : EId) (h : WF s) :
    WF (deviceTurnOn s i).state := by
  simp only [deviceTurnOn]
  split
  · exact h
  · split
    · exact h
    · dsimp only
      exact WF_modify_props s i _ (fun e => rfl) (fun e => rfl) (fun e => rfl) h

theorem WF_deviceTurnOff (s : GameState) (i : EId) (h : WF s) :
    WF (deviceTurnOff s i).state := by
  simp only [deviceTurnOff]
  split
  · exact h
  · split
    · exact h
    · dsimp only
      exact WF_modify_props s i _ (fun e => rfl) (fun e => rfl) (fun e => rfl) h

theorem WF_turnOnDispatch (s : GameState) (i : EId) (h : WF s) :
    WF (turnOnDispatch s i).state := by
  simp only [turnOnDispatch, dishWasherTurnOn]
  split
  · split
    · exact h
    · exact WF_deviceTurnOn s i h
  · exact WF_deviceTurnOn s i h

theorem WF_takeObjectFromContainer (s : GameState) (c o : EId) (h : WF s) :
    WF (takeObjectFromContainer s c o).state := by
  cases hs : (takeObjectFromContainer s c o).success with
  | false => rw [take_fail_state s c o hs]; exact h
  | true => rw [take_success_state s c o hs]; exact WF_removeSelf s o h

/-- Ids of `Dish` entities are in range (the placeholder is of class
`Soap`). -/
theorem lt_of_kind_dish (s : GameState) {d : EId}
    (h : (getEnt s d).kind = .dish) : d < s.ents.length := by
  by_contra hlt
  rw [getEnt_oob s d (Nat.le_of_not_lt hlt)] at h
  simp [defaultEntity] at h

theorem lt_of_kind_dishwasher (s : GameState) {d : EId}
    (h : (getEnt s d).kind = .dishwasher) : d < s.ents.length := by
  by_contra hlt
  rw [getEnt_oob s d (Nat.le_of_not_lt hlt)] at h
  simp [defaultEntity] at h

/-- An entity whose parent is `some p` is not the root. -/
theorem ne_root_of_parent_some (s : GameState) {o p : EId} (h : WF s)
    (hp : (getEnt s o).parent = some p) : o ≠ s.rootId := by
  intro he
  rw [he, h.root_parent] at hp
  exact Option.noConfusion hp

theorem WF_actionTake (s : GameState) (o : EId) (h : WF s) :
    WF (actionTake s o) := by
  simp only [actionTake]
  split
  · exact WF_withObs _ _ h
  · rename_i p hp
    split
    · exact WF_withObs _ _ h
    · cases hs : (takeObjectFromContainer s p o).success with
      | false =>
          rw [if_pos rfl]
          exact WF_withObs _ _ (WF_takeObjectFromContainer s p o h)
      | true =>
          rw [if_neg (fun hcontra => Bool.noConfusion hcontra)]
          apply WF_withObs
          rw [take_success_state s p o hs]
          have hWFr : WF (removeSelfFromContainer s o) := WF_removeSelf s o h
          have hag : (removeSelfFromContainer s o).agentId = s.agentId := agentId_removeSelf s o
          rw [hag]
          apply WF_addObject _ _ _ hWFr
          · rw [length_removeSelf]; exact h.agent_lt
          · rw [length_removeSelf]; exact lt_of_parent_some s hp
          · rw [rootId_removeSelf]; exact ne_root_of_parent_some s h hp

theorem WF_actionPut (s : GameState) (o c : EId) (h : WF s) :
    WF (actionPut s o c) := by
  simp only [actionPut]
  split
  · exact WF_withObs _ _ h
  · split
    · exact WF_withObs _ _ h
    · rename_i hcont hinv
      rw [not_not] at hinv
      cases hs : (takeObjectFromContainer s s.agentId o).success with
      | false =>
          rw [if_pos rfl]
          exact WF_withObs _ _ (WF_takeObjectFromContainer s s.agentId o h)
      | true =>
          rw [if_neg (fun hcontra => Bool.noConfusion hcontra)]
          rw [take_success_state s s.agentId o hs]
          set t := removeSelfFromContainer s o with hts
          have hWFt : WF t := WF_removeSelf s o h
          have hol : o < s.ents.length := lt_of_parent_some s hinv
          have honr : o ≠ s.rootId := ne_root_of_parent_some s h hinv
          cases hps : (placeObjectInContainer t c o).success with
          | false =>
              rw [if_pos rfl]
              apply WF_withObs
              rw [place_fail_state t c o hps]
              apply WF_addObject _ _ _ hWFt
              · rw [hts, length_removeSelf]; exact h.agent_lt
              · rw [hts, length_removeSelf]; exact hol
              · rw [hts, rootId_removeSelf]; exact honr
          | true =>
              rw [if_neg (fun hcontra => Bool.noConfusion hcontra)]
              apply WF_withObs
              rw [place_success_state t c o hps]
              have hcc : (getEnt t c).props.isContainer = true :=
                ((place_success_iff t c o).mp hps).1
              apply WF_addObject _ _ _ hWFt
              · exact lt_of_isContainer t hcc
              · rw [hts, length_removeSelf]; exact hol
              · rw [hts, rootId_removeSelf]; exact honr

theorem WF_actionOpen (s : GameState) (o : EId) (h : WF s) : WF (actionOpen s o) := by
  simp only [actionOpen]
  split
  · exact WF_withObs _ _ (WF_openContainer s o h)
  · exact WF_withObs _ _ h

theorem WF_actionClose (s : GameState) (o : EId) (h : WF s) : WF (actionClose s o) := by
  simp only [actionClose]
  split
  · exact WF_withObs _ _ (WF_closeContainer s o h)
  · exact WF_withObs _ _ h

theorem WF_actionTurnOn (s : GameState) (o : EId) (h : WF s) : WF (actionTurnOn s o) := by
  simp only [actionTurnOn]
  split
  · exact WF_withObs _ _ (WF_turnOnDispatch s o h)
  · exact WF_withObs _ _ h

theorem WF_actionTurnOff (s : GameState) (o : EId) (h : WF s) : WF (actionTurnOff s o) := by
  simp only [actionTurnOff]
  split
  · exact WF_withObs _ _ (WF_deviceTurnOff s o h)
  · exact WF_withObs _ _ h

theorem WF_actionInventory (s : GameState) (h : WF s) : WF (actionInventory s) := by
  simp only [actionInventory]
  split
  · exact WF_withObs _ _ h
  · exact WF_withObs _ _ h

theorem WF_actionEat (s : GameState) (o d : EId) (h : WF s) : WF (actionEat s o d) := by
  simp only [actionEat]
  split
  · exact WF_withObs _ _ h
  · split
    · exact WF_withObs _ _ h
    · split
      · exact WF_withObs _ _ h
      · split
        · rename_i hinv hdish hclean hfood
          rw [not_not] at hinv
          cases hs : (takeObjectFromContainer s s.agentId o).success with
          | false =>
              rw [if_pos rfl]
              exact WF_withObs _ _ (WF_takeObjectFromContainer s s.agentId o h)
          | true =>
              rw [if_neg (fun hcontra => Bool.noConfusion hcontra)]
              apply WF_withObs
              rw [take_success_state s s.agentId o hs]
              set t := removeSelfFromContainer s o with hts
              have hWFt : WF t := WF_removeSelf s o h
              set t2 := modifyEnt t d (fun e =>
                { e with props := { e.props with
                    isDirty := some true,
                    foodMessName := some (some (getEnt t o).name) } }) with ht2
              have hWFt2 : WF t2 :=
                WF_modify_props t d _ (fun e => rfl) (fun e => rfl) (fun e => rfl) hWFt
              have hdk : (getEnt s d).kind = .dish := not_not.mp hdish
              have hdl : d < s.ents.length := lt_of_kind_dish s hdk
              have hlen2 : t2.ents.length = s.ents.length := by
                rw [ht2, length_modifyEnt, hts, length_removeSelf]
              have hroot2 : t2.rootId = s.rootId := by
                rw [ht2, show (modifyEnt t d _).rootId = t.rootId from rfl, hts,
                  rootId_removeSelf]
              apply WF_addObject _ _ _ hWFt2
              · rw [hlen2, hroot2]; exact h.root_lt
              · rw [hlen2]; exact hdl
              · rw [hroot2]
                intro he
                rw [he] at hdk
                rw [h.root_kind] at hdk
                exact EKind.noConfusion hdk
        · exact WF_withObs _ _ h

theorem WF_actionUse (s : GameState) (d p : EId) (h : WF s) : WF (actionUse s d p) := by
  simp only [actionUse, useWithObject]
  split
  · split
    · split
      · -- squirt soap on a dish
        rename_i hbottle hdish
        apply WF_withObs
        dsimp only
        have hfresh : WF { s with ents := s.ents ++ [soapEntity s.ents.length] } :=
          WF_appendFresh s _ rfl rfl h
        apply WF_addObject _ _ _ hfresh
        · simp only [List.length_append, List.length_singleton]
          exact Nat.lt_succ_of_lt (lt_of_kind_dish s hdish)
        · simp
        · show s.ents.length ≠ s.rootId
          exact Nat.ne_of_gt h.root_lt
      · split
        · -- squirt soap into the dishwasher
          rename_i hbottle hnotdish hdw
          apply WF_withObs
          dsimp only
          have hfresh : WF { s with ents := s.ents ++ [soapEntity s.ents.length] } :=
            WF_appendFresh s _ rfl rfl h
          apply WF_addObject _ _ _ hfresh
          · simp only [List.length_append, List.length_singleton]
            exact Nat.lt_succ_of_lt (lt_of_kind_dishwasher s hdw)
          · simp
          · show s.ents.length ≠ s.rootId
            exact Nat.ne_of_gt h.root_lt
        · exact WF_withObs _ _ h
    · exact WF_withObs _ _ h
  · exact WF_withObs _ _ h

theorem WF_applyAction (s : GameState) (a : GAction) (h : WF s) :
    WF (applyAction s a) := by
  cases a with
  | lookAround => exact WF_withObs _ _ h
  | inventory => exact WF_actionInventory s h
  | take o => exact WF_actionTake s o h
  | openAct o => exact WF_actionOpen s o h
  | closeAct o => exact WF_actionClose s o h
  | examine o => exact WF_withObs _ _ h
  | turnOn o => exact WF_actionTurnOn s o h
  | turnOff o => exact WF_actionTurnOff s o h
  | eat o d => exact WF_actionEat s o d h
  | put o c => exact WF_actionPut s o c h
  | use d p => exact WF_actionUse s d p h

/-- Every dispatch path of `step_action` preserves well-formedness. -/
theorem WF_step_action (s : GameState) (actionStr : String) (h : WF s) :
    WF (step_action s actionStr) := by
  simp only [step_action]
  split
  · exact WF_withObs _ _ (WF_withObs _ _ h)
  · split
    · exact WF_applyAction _ _ (WF_of_eq (WF_withObs s "" h) rfl rfl rfl)
    · exact WF_of_eq (WF_withObs s "" h) rfl rfl rfl

theorem WF_foldl (l : List EId) (f : GameState → EId → GameState)
    (hf : ∀ t o, WF t → WF (f t o)) :
    ∀ s : GameState, WF s → WF (l.foldl f s) := by
  induction l with
  | nil => intro s hs; exact hs
  | cons x xs ih => intro s hs; rw [List.foldl_cons]; exact ih _ (hf s x hs)

theorem WF_makeClean (s : GameState) (o : EId) (h : WF s) : WF (makeClean s o) :=
  WF_modify_props s o _ (fun e => rfl) (fun e => rfl) (fun e => rfl) h

theorem WF_dishWasherTick (s : GameState) (w : EId) (h : WF s) :
    WF (dishWasherTick s w) := by
  simp only [dishWasherTick]
  have step1 : WF (if (getEnt s w).props.isOpen = some true then
      modifyEnt s w (fun e =>
        { e with props := { e.props with
            isOn := some false, finishedCycle := some false, cycleStage := some 0 } })
    else s) := by
    split
    · exact WF_modify_props s w _ (fun e => rfl) (fun e => rfl) (fun e => rfl) h
    · exact h
  set s1 := (if (getEnt s w).props.isOpen = some true then
      modifyEnt s w (fun e =>
        { e with props := { e.props with
            isOn := some false, finishedCycle := some false, cycleStage := some 0 } })
    else s)
  split
  · have step2 : WF (if cycleStageOf s1 w < 3 then
        modifyEnt s1 w (fun e =>
          { e with props := { e.props with cycleStage := some (cycleStageOf s1 w + 1) } })
      else s1) := by
      split
      · exact WF_modify_props s1 w _ (fun e => rfl) (fun e => rfl) (fun e => rfl) step1
      · exact step1
    set s2 := (if cycleStageOf s1 w < 3 then
        modifyEnt s1 w (fun e =>
          { e with props := { e.props with cycleStage := some (cycleStageOf s1 w + 1) } })
      else s1)
    split
    · -- stage 2: wash fold then soap-removal fold
      apply WF_foldl _ _ (fun t o ht => by
        split
        · exact WF_removeSelf t o ht
        · exact ht)
      split
      · apply WF_foldl _ _ (fun t o ht => by
          split
          · exact WF_makeClean t o ht
          · exact ht)
        exact step2
      · exact step2
    · split
      · -- stage 3: finish, reset, turn off
        apply WF_deviceTurnOff
        exact WF_modify_props s2 w _ (fun e => rfl) (fun e => rfl) (fun e => rfl) step2
      · exact step2
  · exact step1

theorem WF_tickOne (s : GameState) (i : EId) (h : WF s) : WF (tickOne s i) := by
  simp only [tickOne]
  split
  · exact WF_dishWasherTick s i h
  · exact h

theorem WF_doWorldTick (s : GameState) (h : WF s) : WF (doWorldTick s) :=
  WF_foldl _ _ (fun t o ht => WF_tickOne t o ht) s h

theorem WF_calculateScore (s : GameState) (h : WF s) : WF (calculateScore s) :=
  WF_of_eq h (calculateScore_ents s) (calculateScore_rootId s) (calculateScore_agentId s)

/-- Unfolding of `step` into its three phases. -/
theorem step_eq (s : GameState) (actionStr : String) :
    step s actionStr =
      (calculateScore (doWorldTick (step_action s actionStr)),
        (calculateScore (doWorldTick (step_action s actionStr))).score -
          (doWorldTick (step_action s actionStr)).score) := by
  simp only [step]

set_option maxHeartbeats 1000000 in
/-- A full engine step preserves well-formedness. -/
theorem WF_step (s : GameState) (actionStr : String) (h : WF s) :
    WF (step s actionStr).1 := by
  rw [step_eq]
  exact WF_calculateScore _ (WF_doWorldTick _ (WF_step_action s actionStr h))

/-!
## The pre-order traversal is sound, complete, and duplicate-free

These lemmas justify the fuel `s.ents.length` in
`getAllContainedObjectsRecursive` and give claim C4 its "every reachable
entity, exactly once" content: on a well-formed state the traversal list
contains each transitive descendant of the root exactly once.
-/

/-- `Steps s i m j`: walking child edges from `i` through the successive
nodes `m` (nonempty, ending with `j`) reaches `j`. -/
inductive Steps (s : GameState) : EId → List EId → EId → Prop where
  | single {i j : EId} : j ∈ (getEnt s i).contains → Steps s i [j] j
  | cons {i x : EId} {l : List EId} {j : EId} :
      x ∈ (getEnt s i).contains → Steps s x l j → Steps s i (x :: l) j

/-- `j` is a transitive member of `i`'s containment subtree. -/
def Desc (s : GameState) (i j : EId) : Prop := ∃ l, Steps s i l j

/-- Root-anchored descent paths: `PathTo s l j` records the node list from
the root down to `j`, both included. -/
inductive PathTo (s : GameState) : List EId → EId → Prop where
  | root : PathTo s [s.rootId] s.rootId
  | snoc {l : List EId} {i j : EId} :
      PathTo s l i → j ∈ (getEnt s i).contains → PathTo s (l ++ [j]) j

theorem Steps.ne_nil {s : GameState} {i j : EId} {m : List EId}
    (h : Steps s i m j) : m ≠ [] := by
  cases h <;> simp

/-- Child membership pins down the parent pointer (the containment
coherence of `WF`). -/
theorem parent_of_mem_contains {s : GameState} {i j : EId} (h : WF s)
    (hj : j ∈ (getEnt s i).contains) : (getEnt s j).parent = some i := by
  by_cases hi : i < s.ents.length
  · exact h.mem_parent i hi j hj
  · rw [getEnt_oob s i (Nat.le_of_not_lt hi)] at hj
    simp [defaultEntity] at hj

theorem pathTo_steps {s : GameState} {l : List EId} {i : EId}
    (hp : PathTo s l i) {m : List EId} {j : EId} (hs : Steps s i m j) :
    PathTo s (l ++ m) j := by
  induction hs generalizing l with
  | single hmem => exact PathTo.snoc hp hmem
  | cons hmem hsteps ih =>
      rename_i i' x m' j'
      have := ih (PathTo.snoc hp hmem)
      rwa [List.append_assoc, List.singleton_append] at this

/-- Root-anchored paths are unique: the containment relation of a
well-formed state is a forest below the root. -/
theorem pathTo_unique {s : GameState} (h : WF s) {l l' : List EId} {j : EId}
    (h1 : PathTo s l j) (h2 : PathTo s l' j) : l = l' := by
  induction h1 generalizing l' with
  | root =>
      cases h2 with
      | root => rfl
      | snoc h2' hmem =>
          have := parent_of_mem_contains h hmem
          rw [h.root_parent] at this
          exact Option.noConfusion this
  | snoc h1' hmem ih =>
      rename_i l₀ i j'
      cases h2 with
      | root =>
          have := parent_of_mem_contains h hmem
          rw [h.root_parent] at this
          exact Option.noConfusion this
      | snoc h2' hmem' =>
          rename_i l₀' i'
          have hpi : (getEnt s j').parent = some i := parent_of_mem_contains h hmem
          have hpi' : (getEnt s j').parent = some i' := parent_of_mem_contains h hmem'
          have : i = i' := by
            rw [hpi] at hpi'
            exact Option.some.inj hpi'
          subst this
          rw [ih h2']

/-- Every node on a path has a path that is a prefix of it. -/
theorem pathTo_mem_prefix {s : GameState} {l : List EId} {j : EId}
    (hp : PathTo s l j) : ∀ x ∈ l, ∃ l₁, PathTo s l₁ x ∧ l₁ <+: l := by
  induction hp with
  | root =>
      intro x hx
      simp at hx
      subst hx
      exact ⟨[s.rootId], PathTo.root, List.prefix_refl _⟩
  | snoc h1 hmem ih =>
      rename_i l₀ i j'
      intro x hx
      rcases List.mem_append.mp hx with hx | hx
      · obtain ⟨l₁, hp₁, hpre⟩ := ih x hx
        exact ⟨l₁, hp₁, hpre.trans (List.prefix_append l₀ [j'])⟩
      · simp at hx
        subst hx
        exact ⟨l₀ ++ [x], PathTo.snoc h1 hmem, List.prefix_refl _⟩

/-- Paths never revisit a node. -/
theorem pathTo_nodup {s : GameState} (h : WF s) {l : List EId} {j : EId}
    (hp : PathTo s l j) : l.Nodup := by
  induction hp with
  | root => exact List.nodup_singleton _
  | snoc h1 hmem ih =>
      rename_i l₀ i j'
      rw [List.nodup_append]
      refine ⟨ih, List.nodup_singleton _, ?_⟩
      intro a ha hb
      simp at hb
      subst hb
      obtain ⟨l₁, hp₁, hpre⟩ := pathTo_mem_prefix h1 a ha
      have := pathTo_unique h hp₁ (PathTo.snoc h1 hmem)
      have hlen := hpre.length_le
      rw [this] at hlen
      simp at hlen

theorem pathTo_last_mem {s : GameState} {l : List EId} {j : EId}
    (hp : PathTo s l j) : j ∈ l := by
  cases hp with
  | root => simp
  | snoc h1 hmem => simp

/-- Every node on a rooted path is a live id. -/
theorem pathTo_mem_valid {s : GameState} (h : WF s) {l : List EId} {j : EId}
    (hp : PathTo s l j) : ∀ x ∈ l, x < s.ents.length := by
  induction hp with
  | root =>
      intro x hx
      simp at hx
      subst hx
      exact h.root_lt
  | snoc h1 hmem ih =>
      rename_i l₀ i j'
      intro x hx
      rcases List.mem_append.mp hx with hx | hx
      · exact ih x hx
      · simp at hx
        subst hx
        exact h.mem_valid i (ih i (pathTo_last_mem h1)) x hmem

/-- A rooted path cannot be longer than the heap. -/
theorem pathTo_length_le {s : GameState} (h : WF s) {l : List EId} {j : EId}
    (hp : PathTo s l j) : l.length ≤ s.ents.length := by
  have h1 : l.Nodup := pathTo_nodup h hp
  have h2 : l ⊆ List.range s.ents.length := by
    intro x hx
    exact List.mem_range.mpr (pathTo_mem_valid h hp x hx)
  have := (List.subperm_of_subset h1 h2).length_le
  simpa using this

/-- Fueled-traversal soundness: members of `recContains` are descendants. -/
theorem desc_of_mem_recContains {s : GameState} :
    ∀ (fuel : Nat) (i j : EId), j ∈ recContains s fuel i → Desc s i j := by
  intro fuel
  induction fuel with
  | zero => intro i j hj; simp [recContains] at hj
  | succ f ih =>
      intro i j hj
      simp only [recContains, List.mem_flatMap] at hj
      obtain ⟨c, hc, hj⟩ := hj
      rcases List.mem_cons.mp hj with rfl | hj
      · exact ⟨[j], Steps.single hc⟩
      · obtain ⟨l, hl⟩ := ih c j hj
        exact ⟨c :: l, Steps.cons hc hl⟩

/-- Fueled-traversal completeness: a descendant within `fuel` steps is
listed. -/
theorem mem_recContains_of_steps {s : GameState} {m : List EId} {i j : EId}
    (hs : Steps s i m j) : ∀ fuel, m.length ≤ fuel → j ∈ recContains s fuel i := by
  induction hs with
  | single hmem =>
      rename_i i0 j0
      intro fuel hf
      cases fuel with
      | zero => simp at hf
      | succ f =>
          simp only [recContains, List.mem_flatMap]
          exact ⟨j0, hmem, List.mem_cons_self _ _⟩
  | cons hmem hsteps ih =>
      rename_i i' x m' j'
      intro fuel hf
      cases fuel with
      | zero => simp at hf
      | succ f =>
          simp only [recContains, List.mem_flatMap]
          refine ⟨x, hmem, List.mem_cons_of_mem _ (ih f ?_)⟩
          simpa using Nat.le_of_succ_le_succ (by simpa using hf)

/-- A flat-map of pairwise-disjoint duplicate-free blocks is
duplicate-free. -/
theorem nodup_flatMap_of {L : List EId} {f : EId → List EId}
    (h1 : ∀ c ∈ L, (f c).Nodup)
    (h2 : L.Pairwise (fun a b => ∀ x, x ∈ f a → x ∈ f b → False)) :
    (L.flatMap f).Nodup := by
  induction L with
  | nil => simp
  | cons a L ih =>
      rw [List.flatMap_cons, List.nodup_append]
      obtain ⟨hpa, hpL⟩ := List.pairwise_cons.mp h2
      refine ⟨h1 a (List.mem_cons_self _ _), ih (fun c hc => h1 c (List.mem_cons_of_mem _ hc)) hpL, ?_⟩
      intro x hx hx'
      obtain ⟨b, hb, hxb⟩ := List.mem_flatMap.mp hx'
      exact hpa b hb x hx hxb

/-- On a well-formed state, no node below a rooted node reappears: the
fueled pre-order expansion is duplicate-free. -/
theorem nodup_recContains {s : GameState} (h : WF s) :
    ∀ (fuel : Nat) (i : EId) (l : List EId), PathTo s l i →
      (recContains s fuel i).Nodup := by
  intro fuel
  induction fuel with
  | zero => intro i l hp; simp [recContains]
  | succ f ih =>
      intro i l hp
      simp only [recContains]
      have hil : i < s.ents.length :=
        pathTo_mem_valid h hp i (pathTo_last_mem hp)
      apply nodup_flatMap_of
      · intro c hc
        refine List.Nodup.cons ?_ (ih c (l ++ [c]) (PathTo.snoc hp hc))
        -- c is not its own descendant
        intro hcd
        obtain ⟨m, hm⟩ := desc_of_mem_recContains f c c hcd
        have hp1 : PathTo s (l ++ [c]) c := PathTo.snoc hp hc
        have hp2 : PathTo s ((l ++ [c]) ++ m) c := pathTo_steps hp1 hm
        have heq := pathTo_unique h hp1 hp2
        have hmlen : m.length = 0 := by
          have hlen := congrArg List.length heq
          simp only [List.length_append, List.length_cons, List.length_nil] at hlen
          omega
        exact hm.ne_nil (List.eq_nil_of_length_eq_zero hmlen)
      · -- blocks of distinct children are disjoint
        have hnd : ((getEnt s i).contains).Nodup := h.nodup i hil
        refine hnd.imp_of_mem ?_
        intro a b ha hb hne x hxa hxb
        have key : ∀ c, c ∈ (getEnt s i).contains → x ∈ c :: recContains s f c →
            ∃ m : List EId, PathTo s ((l ++ [c]) ++ m) x := by
          intro c hc hx
          rcases List.mem_cons.mp hx with he | hx
          · subst he
            exact ⟨[], by simpa using PathTo.snoc hp hc⟩
          · obtain ⟨m, hm⟩ := desc_of_mem_recContains f c x hx
            exact ⟨m, pathTo_steps (PathTo.snoc hp hc) hm⟩
        obtain ⟨m1, hq1⟩ := key a ha hxa
        obtain ⟨m2, hq2⟩ := key b hb hxb
        have heq := pathTo_unique h hq1 hq2
        rw [List.append_assoc, List.append_assoc] at heq
        have heq2 := List.append_cancel_left heq
        simp only [List.singleton_append, List.cons.injEq] at heq2
        exact hne heq2.1

/-- On a well-formed state the engine's traversal of the tree below the
root lists exactly the transitive descendants of the root, each exactly
once. -/
theorem traversal_exact (s : GameState) (h : WF s) :
    (getAllContainedObjectsRecursive s s.rootId).Nodup ∧
      ∀ j, j ∈ getAllContainedObjectsRecursive s s.rootId ↔ Desc s s.rootId j := by
  constructor
  · exact nodup_recContains h s.ents.length s.rootId [s.rootId] PathTo.root
  · intro j
    constructor
    · exact desc_of_mem_recContains s.ents.length s.rootId j
    · rintro ⟨m, hm⟩
      have hp : PathTo s ([s.rootId] ++ m) j := pathTo_steps PathTo.root hm
      have hlen := pathTo_length_le h hp
      simp at hlen
      exact mem_recContains_of_steps hm s.ents.length (by omega)

/-!
## Well-formedness of the freshly initialized world
-/

@[simp] theorem rootId_pushObject (s : GameState) (e : Nat → Entity) (p : EId) :
    (pushObject s e p).rootId = s.rootId := by
  simp [pushObject]

@[simp] theorem agentId_pushObject (s : GameState) (e : Nat → Entity) (p : EId) :
    (pushObject s e p).agentId = s.agentId := by
  simp [pushObject]

/-- Creating a fresh object and placing it under a live parent preserves
well-formedness. -/
theorem WF_pushObject (s : GameState) (e : Nat → Entity) (p : EId) (h : WF s)
    (hp : p < s.ents.length) (hpar : (e s.ents.length).parent = none)
    (hcon : (e s.ents.length).contains = []) : WF (pushObject s e p) := by
  unfold pushObject
  have h1 := WF_appendFresh s (e s.ents.length) hpar hcon h
  apply WF_addObject _ _ _ h1
  · simp only [List.length_append, List.length_singleton]
    exact Nat.lt_succ_of_lt hp
  · simp
  · show s.ents.length ≠ s.rootId
    exact Nat.ne_of_gt h.root_lt

theorem WF_foldl_rooted {α : Type} (l : List α) (g : GameState → α → GameState)
    (hg : ∀ t a, WF t → t.rootId = 1 → WF (g t a) ∧ (g t a).rootId = 1) :
    ∀ s : GameState, WF s → s.rootId = 1 →
      WF (l.foldl g s) ∧ (l.foldl g s).rootId = 1 := by
  induction l with
  | nil => intro s hs hr; exact ⟨hs, hr⟩
  | cons x xs ih =>
      intro s hs hr
      rw [List.foldl_cons]
      obtain ⟨h1, h2⟩ := hg s x hs hr
      exact ih _ h1 h2

/-- The parametric `initializeWorld` always builds a well-formed tree, for
every RNG outcome. -/
theorem WF_initializeWorld (dishNames foodNames : List String)
    (numDirty numClean numFood : Nat) :
    WF (initializeWorld dishNames foodNames numDirty numClean numFood) := by
  unfold initializeWorld
  have h0 : WF (initSeed numDirty) :=
    WF_of_eq (show WF (initSeed 0) by constructor <;> decide) rfl rfl rfl
  have h1 := WF_addObject _ 1 0 h0 (show (1:Nat) < 2 by decide)
    (show (0:Nat) < 2 by decide) (show (0:Nat) ≠ 1 by decide)
  have h2 := WF_pushObject _ dishWasherEntity 1 h1 (show (1:Nat) < 2 by decide) rfl rfl
  have h3 := WF_pushObject _ dishSoapBottleEntity 1 h2 (show (1:Nat) < 3 by decide) rfl rfl
  have hroot3 : (pushObject (pushObject (addObject (initSeed numDirty) 1 0)
      dishWasherEntity 1) dishSoapBottleEntity 1).rootId = 1 := by
    simp [initSeed]
  have h4 := WF_foldl_rooted (List.range numDirty)
    (fun t i =>
      let dishType := dishNames.getD (i % dishNames.length) ""
      let foodName := foodNames.getD (i % foodNames.length) ""
      pushObject t (fun n => dirtyDishEntity n dishType foodName (containerPrefixes dishType)) 1)
    (fun t i ht hr => by
      constructor
      · refine WF_pushObject t _ 1 ht (hr ▸ ht.root_lt) ?_ ?_ <;> rfl
      · simp [hr]) _ h3 hroot3
  have h5 := WF_foldl_rooted (List.range numClean)
    (fun t i =>
      let dishType := dishNames.getD ((i + numDirty) % dishNames.length) ""
      pushObject t (fun n => cleanDishEntity n dishType) 1)
    (fun t i ht hr => by
      constructor
      · refine WF_pushObject t _ 1 ht (hr ▸ ht.root_lt) ?_ ?_ <;> rfl
      · simp [hr]) _ h4.1 h4.2
  have h6 := WF_foldl_rooted (List.range numFood)
    (fun t i =>
      let foodName := foodNames.getD ((i + numDirty) % foodNames.length) ""
      pushObject t (fun n => foodEntity n foodName) 1)
    (fun t i ht hr => by
      constructor
      · refine WF_pushObject t _ 1 ht (hr ▸ ht.root_lt) ?_ ?_ <;> rfl
      · simp [hr]) _ h5.1 h5.2
  exact h6.1

/-- The full constructor (`TextGame.__init__`) yields a well-formed state. -/
theorem WF_newGame (dishNames foodNames : List String)
    (numDirty numClean numFood : Nat) :
    WF (newGame dishNames foodNames numDirty numClean numFood) := by
  unfold newGame
  exact WF_calculateScore _
    (WF_withObs _ _ (WF_initializeWorld dishNames foodNames numDirty numClean numFood))

/-!
## Sequences of take/put operations (claim C3)
-/

/-- One "take" or "put" command as dispatched to its handler. -/
inductive TPOp where
  | takeOp (o : EId)
  | putOp (o c : EId)
  deriving DecidableEq, Repr

/-- Run one take/put handler. -/
def applyTPOp (s : GameState) : TPOp → GameState
  | .takeOp o => actionTake s o
  | .putOp o c => actionPut s o c

/-- Run a whole sequence of take/put handlers. -/
def applyTPOps (s : GameState) (ops : List TPOp) : GameState :=
  ops.foldl applyTPOp s

theorem WF_applyTPOps (s : GameState) (ops : List TPOp) (h : WF s) :
    WF (applyTPOps s ops) := by
  unfold applyTPOps
  induction ops generalizing s with
  | nil => exact h
  | cons op ops ih =>
      rw [List.foldl_cons]
      apply ih
      cases op with
      | takeOp o => exact WF_actionTake s o h
      | putOp o c => exact WF_actionPut s o c h

/-- The containment invariant in the spec's words: an entity with a parent
occurs exactly once in that parent's child list and in no other list; a
parentless entity occurs in no list. -/
def ContainmentInvariant (s : GameState) : Prop :=
  ∀ j < s.ents.length,
    (∀ p, (getEnt s j).parent = some p →
      ((getEnt s p).contains.count j = 1 ∧
        ∀ i, i ≠ p → j ∉ (getEnt s i).contains)) ∧
    ((getEnt s j).parent = none → ∀ i, j ∉ (getEnt s i).contains)

/-- Well-formedness implies the spec-level containment invariant. -/
theorem containmentInvariant_of_WF (s : GameState) (h : WF s) :
    ContainmentInvariant s := by
  intro j hj
  constructor
  · intro p hp
    obtain ⟨hpl, hpm⟩ := h.parent_mem j hj p hp
    constructor
    · exact List.count_eq_one_of_mem (h.nodup p hpl) hpm
    · intro i hip hmem
      have : (getEnt s j).parent = some i := parent_of_mem_contains h hmem
      rw [hp] at this
      exact hip (Option.some.inj this).symm
  · intro hp i hmem
    have : (getEnt s j).parent = some i := parent_of_mem_contains h hmem
    rw [hp] at this
    exact Option.noConfusion this

/-!
## Analysis of the dishwasher cycle (claim C8)
-/

/-- One iteration of the wash loop in `DishWasher.tick` stage 1. -/
def washStep (t : GameState) (o : EId) : GameState :=
  if (getEnt t o).kind = .dish then makeClean t o else t

/-- One iteration of the soap-removal loop in `DishWasher.tick` stage 1. -/
def soapStep (t : GameState) (o : EId) : GameState :=
  if (getEnt t o).kind = .soap then removeSelfFromContainer t o else t

theorem washStep_contains (t : GameState) (o j : EId) :
    (getEnt (washStep t o) j).contains = (getEnt t j).contains := by
  unfold washStep
  split
  · exact getEnt_modify_preserve t o _ j (fun e => e.contains) (fun e => rfl)
  · rfl

theorem washStep_kind (t : GameState) (o j : EId) :
    (getEnt (washStep t o) j).kind = (getEnt t j).kind := by
  unfold washStep
  split
  · exact getEnt_modify_preserve t o _ j (fun e => e.kind) (fun e => rfl)
  · rfl

theorem washStep_length (t : GameState) (o : EId) :
    (washStep t o).ents.length = t.ents.length := by
  unfold washStep
  split
  · simp [makeClean]
  · rfl

/-- `makeClean` touches only `isDirty` and `foodMessName`. -/
theorem washStep_props (t : GameState) (o j : EId) {β : Type} (g : Props → β)
    (hg : ∀ p : Props, g { p with isDirty := some false, foodMessName := some none } = g p) :
    g (getEnt (washStep t o) j).props = g (getEnt t j).props := by
  unfold washStep
  split
  · exact getEnt_modify_preserve t o _ j (fun e => g e.props) (fun e => hg e.props)
  · rfl

theorem washFold_contains (objs : List EId) :
    ∀ (t : GameState) (j : EId),
      (getEnt (objs.foldl washStep t) j).contains = (getEnt t j).contains := by
  induction objs with
  | nil => intro t j; rfl
  | cons x rest ih =>
      intro t j
      rw [List.foldl_cons, ih, washStep_contains]

theorem washFold_kind (objs : List EId) :
    ∀ (t : GameState) (j : EId),
      (getEnt (objs.foldl washStep t) j).kind = (getEnt t j).kind := by
  induction objs with
  | nil => intro t j; rfl
  | cons x rest ih =>
      intro t j
      rw [List.foldl_cons, ih, washStep_kind]

theorem washFold_length (objs : List EId) :
    ∀ t : GameState, (objs.foldl washStep t).ents.length = t.ents.length := by
  induction objs with
  | nil => intro t; rfl
  | cons x rest ih =>
      intro t
      rw [List.foldl_cons, ih, washStep_length]

theorem washFold_props (objs : List EId) {β : Type} (g : Props → β)
    (hg : ∀ p : Props, g { p with isDirty := some false, foodMessName := some none } = g p) :
    ∀ (t : GameState) (j : EId),
      g (getEnt (objs.foldl washStep t) j).props = g (getEnt t j).props := by
  induction objs with
  | nil => intro t j; rfl
  | cons x rest ih =>
      intro t j
      rw [List.foldl_cons, ih, washStep_props t x j g hg]

/-- A dish already clean stays clean through further wash iterations. -/
theorem washStep_keeps_clean (t : GameState) (o d : EId)
    (h : (getEnt t d).props.isDirty = some false) :
    (getEnt (washStep t o) d).props.isDirty = some false := by
  unfold washStep
  split
  · unfold makeClean
    by_cases hod : o = d
    · subst hod
      by_cases hol : o < t.ents.length
      · rw [getEnt_modifyEnt_self _ _ _ hol]
      · rw [modifyEnt_oob _ _ _ (Nat.le_of_not_lt hol)]; exact h
    · rw [getEnt_modifyEnt_ne _ _ _ _ hod]; exact h
  · exact h

theorem washFold_keeps_clean (objs : List EId) :
    ∀ (t : GameState) (d : EId), (getEnt t d).props.isDirty = some false →
      (getEnt (objs.foldl washStep t) d).props.isDirty = some false := by
  induction objs with
  | nil => intro t d h; exact h
  | cons x rest ih =>
      intro t d h
      rw [List.foldl_cons]
      exact ih _ d (washStep_keeps_clean t x d h)

/-- After the wash loop, every dish that was enumerated is clean. -/
theorem washFold_clean (objs : List EId) :
    ∀ (t : GameState), (∀ o ∈ objs, o < t.ents.length) →
      ∀ d ∈ objs, (getEnt t d).kind = .dish →
        (getEnt (objs.foldl washStep t) d).props.isDirty = some false := by
  induction objs with
  | nil => intro t _ d hd; simp at hd
  | cons x rest ih =>
      intro t hval d hd hkind
      rw [List.foldl_cons]
      rcases List.mem_cons.mp hd with rfl | hd
      · -- d is washed by this iteration, and stays clean
        have hx : washStep t d = makeClean t d := by
          unfold washStep; rw [if_pos hkind]
        apply washFold_keeps_clean
        rw [hx]
        unfold makeClean
        rw [getEnt_modifyEnt_self _ _ _ (hval d (List.mem_cons_self _ _))]
      · apply ih (washStep t x)
        · intro o ho
          rw [washStep_length]
          exact hval o (List.mem_cons_of_mem _ ho)
        · exact hd
        · rw [washStep_kind]; exact hkind

theorem removeSelf_contains_sub (t : GameState) (o : EId) (j : EId) :
    (getEnt (removeSelfFromContainer t o) j).contains ⊆ (getEnt t j).contains := by
  unfold removeSelfFromContainer
  cases hp : (getEnt t o).parent with
  | none => exact fun x hx => hx
  | some p =>
      unfold removeObject
      intro x hx
      rw [getEnt_modify_preserve _ o (fun e => { e with parent := none }) j
        (fun e => e.contains) (fun e => rfl)] at hx
      by_cases hjp : j = p
      · subst hjp
        by_cases hjl : j < t.ents.length
        · rw [getEnt_modifyEnt_self _ _ _ hjl] at hx
          exact List.mem_of_mem_erase hx
        · rw [modifyEnt_oob _ _ _ (Nat.le_of_not_lt hjl)] at hx
          exact hx
      · rw [getEnt_modifyEnt_ne _ _ _ _ (fun e => hjp e.symm)] at hx
        exact hx

theorem removeSelf_props_any (t : GameState) (o j : EId) :
    (getEnt (removeSelfFromContainer t o) j).props = (getEnt t j).props :=
  removeSelf_props t o j

theorem soapStep_props (t : GameState) (o j : EId) :
    (getEnt (soapStep t o) j).props = (getEnt t j).props := by
  unfold soapStep
  split
  · exact removeSelf_props t o j
  · rfl

theorem soapStep_kind (t : GameState) (o j : EId) :
    (getEnt (soapStep t o) j).kind = (getEnt t j).kind := by
  unfold soapStep
  split
  · exact removeSelf_kind t o j
  · rfl

theorem soapStep_length (t : GameState) (o : EId) :
    (soapStep t o).ents.length = t.ents.length := by
  unfold soapStep
  split
  · exact length_removeSelf t o
  · rfl

theorem soapStep_contains_sub (t : GameState) (o j : EId) :
    (getEnt (soapStep t o) j).contains ⊆ (getEnt t j).contains := by
  unfold soapStep
  split
  · exact removeSelf_contains_sub t o j
  · exact fun x hx => hx

theorem soapFold_props (objs : List EId) :
    ∀ (t : GameState) (j : EId),
      (getEnt (objs.foldl soapStep t) j).props = (getEnt t j).props := by
  induction objs with
  | nil => intro t j; rfl
  | cons x rest ih =>
      intro t j
      rw [List.foldl_cons, ih, soapStep_props]

theorem soapFold_kind (objs : List EId) :
    ∀ (t : GameState) (j : EId),
      (getEnt (objs.foldl soapStep t) j).kind = (getEnt t j).kind := by
  induction objs with
  | nil => intro t j; rfl
  | cons x rest ih =>
      intro t j
      rw [List.foldl_cons, ih, soapStep_kind]

theorem soapFold_length (objs : List EId) :
    ∀ t : GameState, (objs.foldl soapStep t).ents.length = t.ents.length := by
  induction objs with
  | nil => intro t; rfl
  | cons x rest ih =>
      intro t
      rw [List.foldl_cons, ih, soapStep_length]

theorem soapFold_contains_sub (objs : List EId) :
    ∀ (t : GameState) (j : EId),
      (getEnt (objs.foldl soapStep t) j).contains ⊆ (getEnt t j).contains := by
  induction objs with
  | nil => intro t j x hx; exact hx
  | cons x rest ih =>
      intro t j y hy
      rw [List.foldl_cons] at hy
      exact soapStep_contains_sub t x j (ih _ j hy)

/-- Traversal lists shrink (as sets) when all child lists shrink. -/
theorem recContains_mono {s t : GameState}
    (hc : ∀ j, (getEnt t j).contains ⊆ (getEnt s j).contains) :
    ∀ (fuel : Nat) (i x : EId), x ∈ recContains t fuel i → x ∈ recContains s fuel i := by
  intro fuel
  induction fuel with
  | zero => intro i x hx; simp [recContains] at hx
  | succ f ih =>
      intro i x hx
      simp only [recContains, List.mem_flatMap] at hx ⊢
      obtain ⟨c, hcmem, hx⟩ := hx
      refine ⟨c, hc i hcmem, ?_⟩
      rcases List.mem_cons.mp hx with rfl | hx
      · exact List.mem_cons_self _ _
      · exact List.mem_cons_of_mem _ (ih c x hx)

/-- Traversal lists are unchanged when all child lists are unchanged. -/
theorem recContains_congr {s t : GameState}
    (hc : ∀ j, (getEnt t j).contains = (getEnt s j).contains) :
    ∀ (fuel : Nat) (i : EId), recContains t fuel i = recContains s fuel i := by
  intro fuel
  induction fuel with
  | zero => intro i; rfl
  | succ f ih =>
      intro i
      simp only [recContains, hc i]
      induction (getEnt s i).contains with
      | nil => rfl
      | cons c cs ihc =>
          rw [List.flatMap_cons, List.flatMap_cons, ihc, ih c]

/-- Members of a traversal are live ids. -/
theorem lt_of_mem_recContains {s : GameState} (h : WF s) :
    ∀ (fuel : Nat) (i x : EId), x ∈ recContains s fuel i → x < s.ents.length := by
  intro fuel
  induction fuel with
  | zero => intro i x hx; simp [recContains] at hx
  | succ f ih =>
      intro i x hx
      simp only [recContains, List.mem_flatMap] at hx
      obtain ⟨c, hcmem, hx⟩ := hx
      have hcl : c < s.ents.length := by
        by_cases hi : i < s.ents.length
        · exact h.mem_valid i hi c hcmem
        · rw [getEnt_oob s i (Nat.le_of_not_lt hi)] at hcmem
          simp [defaultEntity] at hcmem
      rcases List.mem_cons.mp hx with rfl | hx
      · exact hcl
      · exact ih c x hx

theorem lt_of_prop_isOpen {s : GameState} {w : EId} {b : Bool}
    (h : (getEnt s w).props.isOpen = some b) : w < s.ents.length := by
  by_contra hlt
  rw [getEnt_oob s w (Nat.le_of_not_lt hlt)] at h
  simp [defaultEntity] at h

/-- `DishWasher.tick` on an open washer: turn off and reset, nothing else
(the wash branch is then skipped because `isOn` has just been cleared). -/
theorem dishWasherTick_open (s : GameState) (w : EId)
    (hopen : (getEnt s w).props.isOpen = some true) :
    dishWasherTick s w = modifyEnt s w (fun e =>
      { e with props := { e.props with
          isOn := some false, finishedCycle := some false, cycleStage := some 0 } }) := by
  have hwl : w < s.ents.length := lt_of_prop_isOpen hopen
  have hoff : ¬((getEnt (modifyEnt s w (fun e =>
      { e with props := { e.props with
          isOn := some false, finishedCycle := some false, cycleStage := some 0 } })) w).props.isOn
        = some true) := by
    rw [getEnt_modifyEnt_self _ _ _ hwl]
    simp
  unfold dishWasherTick
  rw [if_pos hopen, if_neg hoff]

/-- `DishWasher.tick`, closed and on at stage 0: the stage advances to 1 and
nothing else happens. -/
theorem dishWasherTick_stage0 (s : GameState) (w : EId)
    (hopen : (getEnt s w).props.isOpen = some false)
    (hon : (getEnt s w).props.isOn = some true)
    (hstage : (getEnt s w).props.cycleStage = some 0) :
    dishWasherTick s w = modifyEnt s w (fun e =>
      { e with props := { e.props with cycleStage := some 1 } }) := by
  have hwl : w < s.ents.length := lt_of_prop_isOpen hopen
  have hnotopen : ¬((getEnt s w).props.isOpen = some true) := by rw [hopen]; simp
  have hlt3 : cycleStageOf s w < 3 := by unfold cycleStageOf; rw [hstage]; decide
  have hs1 : cycleStageOf s w + 1 = 1 := by unfold cycleStageOf; rw [hstage]; rfl
  have hstg1 : cycleStageOf (modifyEnt s w (fun e =>
      { e with props := { e.props with cycleStage := some (cycleStageOf s w + 1) } })) w = 1 := by
    unfold cycleStageOf
    rw [getEnt_modifyEnt_self _ _ _ hwl]
    show (some (cycleStageOf s w + 1)).getD 0 = 1
    rw [hs1]
    rfl
  unfold dishWasherTick
  rw [if_neg hnotopen, if_pos hon, if_pos hlt3,
    if_neg (by rw [hstg1]; decide), if_neg (by rw [hstg1]; decide), hs1]

/-- `DishWasher.tick`, closed and on at stage 1, with soap inside: the stage
advances to 2, every contained dish is washed, and all soap is removed. -/
theorem dishWasherTick_stage1 (s : GameState) (w : EId)
    (hopen : (getEnt s w).props.isOpen = some false)
    (hon : (getEnt s w).props.isOn = some true)
    (hstage : (getEnt s w).props.cycleStage = some 1)
    (hsoap : ∃ x ∈ getAllContainedObjectsRecursive s w, (getEnt s x).kind = .soap) :
    dishWasherTick s w =
      (let s2a := modifyEnt s w (fun e =>
        { e with props := { e.props with cycleStage := some 2 } })
      let s2b := (getAllContainedObjectsRecursive s2a w).foldl washStep s2a
      (getAllContainedObjectsRecursive s2b w).foldl soapStep s2b) := by
  have hwl : w < s.ents.length := lt_of_prop_isOpen hopen
  have hnotopen : ¬((getEnt s w).props.isOpen = some true) := by rw [hopen]; simp
  have hlt3 : cycleStageOf s w < 3 := by unfold cycleStageOf; rw [hstage]; decide
  have hs2 : cycleStageOf s w + 1 = 2 := by unfold cycleStageOf; rw [hstage]; rfl
  set s2a := modifyEnt s w (fun e =>
    { e with props := { e.props with cycleStage := some 2 } }) with hs2a
  have hstg2 : cycleStageOf s2a w = 2 := by
    unfold cycleStageOf
    rw [hs2a, getEnt_modifyEnt_self _ _ _ hwl]
    rfl
  have hcong : ∀ j, (getEnt s2a j).contains = (getEnt s j).contains := by
    intro j
    rw [hs2a]
    exact getEnt_modify_preserve s w _ j (fun e => e.contains) (fun e => rfl)
  have hkind : ∀ j, (getEnt s2a j).kind = (getEnt s j).kind := by
    intro j
    rw [hs2a]
    exact getEnt_modify_preserve s w _ j (fun e => e.kind) (fun e => rfl)
  have hobjs : getAllContainedObjectsRecursive s2a w
      = getAllContainedObjectsRecursive s w := by
    unfold getAllContainedObjectsRecursive
    rw [hs2a, length_modifyEnt]
    exact recContains_congr hcong s.ents.length w
  have hcs : (getAllContainedObjectsRecursive s2a w).any
      (fun o => (getEnt s2a o).kind == EKind.soap) = true := by
    rw [hobjs, List.any_eq_true]
    obtain ⟨x, hx, hk⟩ := hsoap
    exact ⟨x, hx, by rw [hkind x, hk]; decide⟩
  unfold dishWasherTick
  rw [if_neg hnotopen, if_pos hon, if_pos hlt3, hs2]
  rw [← hs2a, if_pos hstg2]
  simp only [hcs]
  rfl

/-- `Device.turnOff` on an activatable, currently-on device just clears
`isOn`. -/
theorem deviceTurnOff_on (s : GameState) (i : EId)
    (hact : ¬((getEnt s i).props.isActivatable = some false))
    (hon : (getEnt s i).props.isOn = some true) :
    (deviceTurnOff s i).state =
      modifyEnt s i (fun e => { e with props := { e.props with isOn := some false } }) := by
  simp only [deviceTurnOff]
  rw [if_neg hact, if_neg (show ¬(!(pyTruthy (getEnt s i).props.isOn)) = true by
    rw [hon]; decide)]

/-- `DishWasher.tick`, closed and on at stage 2: the cycle finishes —
`finishedCycle` is latched, the stage resets to 0 and the device turns
itself off. -/
theorem dishWasherTick_stage2 (s : GameState) (w : EId)
    (hopen : (getEnt s w).props.isOpen = some false)
    (hon : (getEnt s w).props.isOn = some true)
    (hstage : (getEnt s w).props.cycleStage = some 2)
    (hact : (getEnt s w).props.isActivatable = some true) :
    dishWasherTick s w =
      (let s3a := modifyEnt s w (fun e =>
        { e with props := { e.props with cycleStage := some 3 } })
      let s3b := modifyEnt s3a w (fun e =>
        { e with props := { e.props with finishedCycle := some true, cycleStage := some 0 } })
      modifyEnt s3b w (fun e =>
        { e with props := { e.props with isOn := some false } })) := by
  have hwl : w < s.ents.length := lt_of_prop_isOpen hopen
  have hnotopen : ¬((getEnt s w).props.isOpen = some true) := by rw [hopen]; simp
  have hlt3 : cycleStageOf s w < 3 := by unfold cycleStageOf; rw [hstage]; decide
  have hs3 : cycleStageOf s w + 1 = 3 := by unfold cycleStageOf; rw [hstage]; rfl
  set s3a := modifyEnt s w (fun e =>
    { e with props := { e.props with cycleStage := some 3 } }) with hs3a
  have hstg3 : cycleStageOf s3a w = 3 := by
    unfold cycleStageOf
    rw [hs3a, getEnt_modifyEnt_self _ _ _ hwl]
    rfl
  set s3b := modifyEnt s3a w (fun e =>
    { e with props := { e.props with finishedCycle := some true, cycleStage := some 0 } })
    with hs3b
  have hact3 : (getEnt s3b w).props.isActivatable = some true := by
    rw [hs3b, getEnt_modifyEnt_self _ _ _ (by rw [hs3a]; simpa using hwl)]
    rw [hs3a, getEnt_modifyEnt_self _ _ _ hwl]
    exact hact
  have hon3 : (getEnt s3b w).props.isOn = some true := by
    rw [hs3b, getEnt_modifyEnt_self _ _ _ (by rw [hs3a]; simpa using hwl)]
    rw [hs3a, getEnt_modifyEnt_self _ _ _ hwl]
    exact hon
  have hne2 : ¬(cycleStageOf s3a w = 2) := by rw [hstg3]; decide
  unfold dishWasherTick
  rw [if_neg hnotopen, if_pos hon, if_pos hlt3, hs3]
  rw [← hs3a, if_neg hne2, if_pos hstg3, ← hs3b]
  exact deviceTurnOff_on s3b w (by rw [hact3]; simp) hon3

/-- Washing run, in full: starting closed, just turned on (stage 0), with
soap among the washer's contents, three consecutive `DishWasher.tick` calls
advance the stage 0→1→2, wash every contained dish, and end with
`finishedCycle = True`, `cycleStage = 0`, `isOn = False`. -/
theorem washerCycle_spec (s : GameState) (w : EId) (h : WF s)
    (hk : (getEnt s w).kind = .dishwasher)
    (hopen : (getEnt s w).props.isOpen = some false)
    (hon : (getEnt s w).props.isOn = some true)
    (hstage : (getEnt s w).props.cycleStage = some 0)
    (hact : (getEnt s w).props.isActivatable = some true)
    (hsoap : ∃ x ∈ getAllContainedObjectsRecursive s w, (getEnt s x).kind = .soap) :
    (getEnt (dishWasherTick s w) w).props.cycleStage = some 1 ∧
    (getEnt (dishWasherTick (dishWasherTick s w) w) w).props.cycleStage = some 2 ∧
    ((getEnt (dishWasherTick (dishWasherTick (dishWasherTick s w) w) w) w).props.finishedCycle
        = some true ∧
      (getEnt (dishWasherTick (dishWasherTick (dishWasherTick s w) w) w) w).props.isOn
        = some false ∧
      (getEnt (dishWasherTick (dishWasherTick (dishWasherTick s w) w) w) w).props.cycleStage
        = some 0) ∧
    ∀ d ∈ getAllContainedObjectsRecursive
        (dishWasherTick (dishWasherTick (dishWasherTick s w) w) w) w,
      (getEnt (dishWasherTick (dishWasherTick (dishWasherTick s w) w) w) d).kind = .dish →
      (getEnt (dishWasherTick (dishWasherTick (dishWasherTick s w) w) w) d).props.isDirty
        = some false := by
  have hwl : w < s.ents.length := lt_of_prop_isOpen hopen
  -- Tick 1: stage 0 → 1
  set s1 := dishWasherTick s w with hs1def
  have e1 : s1 = modifyEnt s w (fun e =>
      { e with props := { e.props with cycleStage := some 1 } }) :=
    dishWasherTick_stage0 s w hopen hon hstage
  have hg1w : getEnt s1 w = (fun e =>
      { e with props := { e.props with cycleStage := some 1 } }) (getEnt s w) := by
    rw [e1, getEnt_modifyEnt_self _ _ _ hwl]
  have hlen1 : s1.ents.length = s.ents.length := by rw [e1, length_modifyEnt]
  have hcon1 : ∀ j, (getEnt s1 j).contains = (getEnt s j).contains := by
    intro j
    rw [e1]
    exact getEnt_modify_preserve s w _ j (fun e => e.contains) (fun e => rfl)
  have hkind1 : ∀ j, (getEnt s1 j).kind = (getEnt s j).kind := by
    intro j
    rw [e1]
    exact getEnt_modify_preserve s w _ j (fun e => e.kind) (fun e => rfl)
  have hobjs1 : getAllContainedObjectsRecursive s1 w
      = getAllContainedObjectsRecursive s w := by
    unfold getAllContainedObjectsRecursive
    rw [hlen1]
    exact recContains_congr hcon1 s.ents.length w
  have hWF1 : WF s1 := by
    rw [e1]
    exact WF_modify_props s w _ (fun e => rfl) (fun e => rfl) (fun e => rfl) h
  have h1open : (getEnt s1 w).props.isOpen = some false := by rw [hg1w]; exact hopen
  have h1on : (getEnt s1 w).props.isOn = some true := by rw [hg1w]; exact hon
  have h1stage : (getEnt s1 w).props.cycleStage = some 1 := by rw [hg1w]
  have h1act : (getEnt s1 w).props.isActivatable = some true := by rw [hg1w]; exact hact
  have h1soap : ∃ x ∈ getAllContainedObjectsRecursive s1 w, (getEnt s1 x).kind = .soap := by
    obtain ⟨x, hx, hxk⟩ := hsoap
    exact ⟨x, by rw [hobjs1]; exact hx, by rw [hkind1]; exact hxk⟩
  refine ⟨h1stage, ?_⟩
  -- Tick 2: stage 1 → 2, wash, remove soap
  set s2 := dishWasherTick s1 w with hs2def
  have e2 := dishWasherTick_stage1 s1 w h1open h1on h1stage h1soap
  set s2a := modifyEnt s1 w (fun e =>
    { e with props := { e.props with cycleStage := some 2 } }) with hs2adef
  set s2b := (getAllContainedObjectsRecursive s2a w).foldl washStep s2a with hs2bdef
  have e2' : s2 = (getAllContainedObjectsRecursive s2b w).foldl soapStep s2b := e2
  have hwl1 : w < s1.ents.length := by rw [hlen1]; exact hwl
  have hlen2a : s2a.ents.length = s1.ents.length := by rw [hs2adef, length_modifyEnt]
  have hg2aw : getEnt s2a w = (fun e =>
      { e with props := { e.props with cycleStage := some 2 } }) (getEnt s1 w) := by
    rw [hs2adef, getEnt_modifyEnt_self _ _ _ hwl1]
  have hcon2a : ∀ j, (getEnt s2a j).contains = (getEnt s1 j).contains := by
    intro j
    rw [hs2adef]
    exact getEnt_modify_preserve s1 w _ j (fun e => e.contains) (fun e => rfl)
  have hkind2a : ∀ j, (getEnt s2a j).kind = (getEnt s1 j).kind := by
    intro j
    rw [hs2adef]
    exact getEnt_modify_preserve s1 w _ j (fun e => e.kind) (fun e => rfl)
  have hWF2a : WF s2a := by
    rw [hs2adef]
    exact WF_modify_props s1 w _ (fun e => rfl) (fun e => rfl) (fun e => rfl) hWF1
  -- facts through the wash fold
  have hlen2b : s2b.ents.length = s2a.ents.length := by
    rw [hs2bdef]; exact washFold_length _ s2a
  have hcon2b : ∀ j, (getEnt s2b j).contains = (getEnt s2a j).contains := by
    intro j; rw [hs2bdef]; exact washFold_contains _ s2a j
  have hkind2b : ∀ j, (getEnt s2b j).kind = (getEnt s2a j).kind := by
    intro j; rw [hs2bdef]; exact washFold_kind _ s2a j
  have hobjs2b : getAllContainedObjectsRecursive s2b w
      = getAllContainedObjectsRecursive s2a w := by
    unfold getAllContainedObjectsRecursive
    rw [hlen2b, hlen2a]
    exact recContains_congr hcon2b s1.ents.length w
  -- facts through the soap fold
  have hlen2 : s2.ents.length = s2b.ents.length := by
    rw [e2']; exact soapFold_length _ s2b
  have hprops2 : ∀ j, (getEnt s2 j).props = (getEnt s2b j).props := by
    intro j; rw [e2']; exact soapFold_props _ s2b j
  have hkind2 : ∀ j, (getEnt s2 j).kind = (getEnt s2b j).kind := by
    intro j; rw [e2']; exact soapFold_kind _ s2b j
  have hsub2 : ∀ j, (getEnt s2 j).contains ⊆ (getEnt s2b j).contains := by
    intro j; rw [e2']; exact soapFold_contains_sub _ s2b j
  -- washer props after tick 2
  have hw2b : ∀ {β : Type} (g : Props → β),
      (∀ p : Props, g { p with isDirty := some false, foodMessName := some none } = g p) →
      g (getEnt s2b w).props = g (getEnt s2a w).props := by
    intro β g hg
    rw [hs2bdef]
    exact washFold_props _ g hg s2a w
  have h2open : (getEnt s2 w).props.isOpen = some false := by
    rw [hprops2 w]
    rw [show (getEnt s2b w).props.isOpen = (getEnt s2a w).props.isOpen from
      hw2b (fun p => p.isOpen) (fun p => rfl)]
    rw [hg2aw]
    exact h1open
  have h2on : (getEnt s2 w).props.isOn = some true := by
    rw [hprops2 w]
    rw [show (getEnt s2b w).props.isOn = (getEnt s2a w).props.isOn from
      hw2b (fun p => p.isOn) (fun p => rfl)]
    rw [hg2aw]
    exact h1on
  have h2stage : (getEnt s2 w).props.cycleStage = some 2 := by
    rw [hprops2 w]
    rw [show (getEnt s2b w).props.cycleStage = (getEnt s2a w).props.cycleStage from
      hw2b (fun p => p.cycleStage) (fun p => rfl)]
    rw [hg2aw]
  have h2act : (getEnt s2 w).props.isActivatable = some true := by
    rw [hprops2 w]
    rw [show (getEnt s2b w).props.isActivatable = (getEnt s2a w).props.isActivatable from
      hw2b (fun p => p.isActivatable) (fun p => rfl)]
    rw [hg2aw]
    exact h1act
  refine ⟨h2stage, ?_⟩
  -- Tick 3: finish
  set s3 := dishWasherTick s2 w with hs3def
  have e3 := dishWasherTick_stage2 s2 w h2open h2on h2stage h2act
  set s3a := modifyEnt s2 w (fun e =>
    { e with props := { e.props with cycleStage := some 3 } }) with hs3adef
  set s3b := modifyEnt s3a w (fun e =>
    { e with props := { e.props with finishedCycle := some true, cycleStage := some 0 } })
    with hs3bdef
  have e3' : s3 = modifyEnt s3b w (fun e =>
      { e with props := { e.props with isOn := some false } }) := e3
  have hwl2 : w < s2.ents.length := by
    rw [hlen2, hlen2b, hlen2a, hlen1]; exact hwl
  have hwl3a : w < s3a.ents.length := by rw [hs3adef, length_modifyEnt]; exact hwl2
  have hwl3b : w < s3b.ents.length := by
    rw [hs3bdef, length_modifyEnt]; exact hwl3a
  have hg3w : getEnt s3 w = (fun e =>
      { e with props := { e.props with isOn := some false } })
      ((fun e => { e with props := { e.props with finishedCycle := some true, cycleStage := some 0 } })
        ((fun e => { e with props := { e.props with cycleStage := some 3 } }) (getEnt s2 w))) := by
    rw [e3', getEnt_modifyEnt_self _ _ _ hwl3b, hs3bdef,
      getEnt_modifyEnt_self _ _ _ hwl3a, hs3adef, getEnt_modifyEnt_self _ _ _ hwl2]
  refine ⟨⟨by rw [hg3w], by rw [hg3w], by rw [hg3w]⟩, ?_⟩
  -- every dish still contained is clean
  have hcon3 : ∀ j, (getEnt s3 j).contains = (getEnt s2 j).contains := by
    intro j
    rw [e3']
    rw [getEnt_modify_preserve _ w (fun e =>
      { e with props := { e.props with isOn := some false } }) j
      (fun e => e.contains) (fun e => rfl), hs3bdef]
    rw [getEnt_modify_preserve _ w (fun e =>
      { e with props := { e.props with finishedCycle := some true, cycleStage := some 0 } }) j
      (fun e => e.contains) (fun e => rfl), hs3adef]
    exact getEnt_modify_preserve s2 w _ j (fun e => e.contains) (fun e => rfl)
  have hlen3 : s3.ents.length = s2.ents.length := by
    rw [e3', length_modifyEnt, hs3bdef, length_modifyEnt, hs3adef, length_modifyEnt]
  have hprops3ne : ∀ j, j ≠ w → (getEnt s3 j).props = (getEnt s2 j).props := by
    intro j hj
    rw [e3', getEnt_modifyEnt_ne _ _ _ _ (fun e => hj e.symm), hs3bdef,
      getEnt_modifyEnt_ne _ _ _ _ (fun e => hj e.symm), hs3adef,
      getEnt_modifyEnt_ne _ _ _ _ (fun e => hj e.symm)]
  have hkind3 : ∀ j, (getEnt s3 j).kind = (getEnt s2 j).kind := by
    intro j
    rw [e3']
    rw [getEnt_modify_preserve _ w (fun e =>
      { e with props := { e.props with isOn := some false } }) j
      (fun e => e.kind) (fun e => rfl), hs3bdef]
    rw [getEnt_modify_preserve _ w (fun e =>
      { e with props := { e.props with finishedCycle := some true, cycleStage := some 0 } }) j
      (fun e => e.kind) (fun e => rfl), hs3adef]
    exact getEnt_modify_preserve s2 w _ j (fun e => e.kind) (fun e => rfl)
  intro d hd hdk
  -- membership transports back to the wash-time enumeration
  have hd2 : d ∈ getAllContainedObjectsRecursive s2 w := by
    unfold getAllContainedObjectsRecursive at hd ⊢
    rw [hlen3] at hd
    exact (recContains_congr hcon3 s2.ents.length w) ▸ hd
  have hd2b : d ∈ getAllContainedObjectsRecursive s2b w := by
    unfold getAllContainedObjectsRecursive at hd2 ⊢
    rw [hlen2] at hd2
    exact recContains_mono hsub2 s2b.ents.length w d hd2
  have hd2a : d ∈ getAllContainedObjectsRecursive s2a w := by
    rw [← hobjs2b]; exact hd2b
  -- its class is Dish already at wash time
  have hdk2a : (getEnt s2a d).kind = .dish := by
    rw [← hkind2b, ← hkind2 d, ← hkind3 d]; exact hdk
  -- the wash loop cleaned it
  have hvalid : ∀ o ∈ getAllContainedObjectsRecursive s2a w, o < s2a.ents.length :=
    fun o ho => lt_of_mem_recContains hWF2a s2a.ents.length w o ho
  have hclean2b : (getEnt s2b d).props.isDirty = some false := by
    rw [hs2bdef]
    exact washFold_clean _ s2a hvalid d hd2a hdk2a
  -- and it stayed clean through soap removal and the finishing tick
  have hdnw : d ≠ w := by
    intro he
    rw [he] at hdk
    rw [hkind3 w, hkind2 w, hkind2b w, hkind2a w, hkind1 w, hk] at hdk
    exact EKind.noConfusion hdk
  rw [hprops3ne d hdnw, hprops2 d]
  exact hclean2b

/-!
## Remaining helper lemmas for the claim theorems
-/

theorem removeSelf_name (s : GameState) (o j : EId) :
    (getEnt (removeSelfFromContainer s o) j).name = (getEnt s j).name := by
  unfold removeSelfFromContainer
  cases hp : (getEnt s o).parent with
  | none => rfl
  | some p =>
      unfold removeObject
      rw [getEnt_modify_preserve _ o (fun e => { e with parent := none }) j
        (fun e => e.name) (fun e => rfl)]
      exact getEnt_modify_preserve _ p (fun e => { e with contains := e.contains.erase o }) j
        (fun e => e.name) (fun e => rfl)

/-- The observation/step-count fields, which the tick and the scorer never
write. -/
def tickMeta (s : GameState) : String × Nat := (s.observationStr, s.numSteps)

@[simp] theorem tickMeta_setEnt (s : GameState) (i : EId) (e : Entity) :
    tickMeta (setEnt s i e) = tickMeta s := rfl

@[simp] theorem tickMeta_modifyEnt (s : GameState) (i : EId) (f : Entity → Entity) :
    tickMeta (modifyEnt s i f) = tickMeta s := rfl

@[simp] theorem tickMeta_makeClean (s : GameState) (o : EId) :
    tickMeta (makeClean s o) = tickMeta s := rfl

@[simp] theorem tickMeta_removeSelf (s : GameState) (o : EId) :
    tickMeta (removeSelfFromContainer s o) = tickMeta s := by
  unfold removeSelfFromContainer
  cases (getEnt s o).parent with
  | none => rfl
  | some p => rfl

theorem tickMeta_foldl (l : List EId) (f : GameState → EId → GameState)
    (hf : ∀ t o, tickMeta (f t o) = tickMeta t) :
    ∀ s : GameState, tickMeta (l.foldl f s) = tickMeta s := by
  induction l with
  | nil => intro s; rfl
  | cons x xs ih => intro s; rw [List.foldl_cons, ih, hf]

@[simp] theorem tickMeta_deviceTurnOff (s : GameState) (i : EId) :
    tickMeta (deviceTurnOff s i).state = tickMeta s := by
  simp only [deviceTurnOff]
  split <;> (try split) <;> simp

@[simp] theorem tickMeta_dishWasherTick (s : GameState) (w : EId) :
    tickMeta (dishWasherTick s w) = tickMeta s := by
  simp only [dishWasherTick]
  split <;> (try split) <;> (try split) <;> (try split) <;> (try split) <;>
    (try simp) <;>
    (try rw [tickMeta_foldl _ _ (fun t o => by split <;> simp)]) <;>
    (try rw [tickMeta_foldl _ _ (fun t o => by split <;> simp)]) <;>
    (try simp) <;> (try rfl)

@[simp] theorem tickMeta_tickOne (s : GameState) (i : EId) :
    tickMeta (tickOne s i) = tickMeta s := by
  simp only [tickOne]
  split <;> simp

theorem tickMeta_doWorldTick (s : GameState) : tickMeta (doWorldTick s) = tickMeta s :=
  tickMeta_foldl _ _ (fun t o => tickMeta_tickOne t o) s

/-!
### Branch characterizations of `placeObjectInContainer` and
`takeObjectFromContainer`
-/

theorem place_not_container (s : GameState) (c o : EId)
    (hc : (getEnt s c).props.isContainer = false) :
    placeObjectInContainer s c o =
      ⟨"The " ++ (getEnt s c).name ++ " is not a container, so things can't be placed there.",
        none, false, s⟩ := by
  simp only [placeObjectInContainer]
  rw [if_pos (by simp [hc])]

theorem place_not_moveable (s : GameState) (c o : EId)
    (hc : (getEnt s c).props.isContainer = true)
    (hm : (getEnt s o).props.isMoveable = false) :
    placeObjectInContainer s c o =
      ⟨"The " ++ (getEnt s o).name ++ " is not moveable.", some none, false, s⟩ := by
  simp only [placeObjectInContainer]
  rw [if_neg (by simp [hc]), if_pos (by simp [hm])]

theorem place_closed (s : GameState) (c o : EId)
    (hc : (getEnt s c).props.isContainer = true)
    (hm : (getEnt s o).props.isMoveable = true)
    (hop : ¬((getEnt s c).props.isOpen = some true)) :
    placeObjectInContainer s c o =
      ⟨"The " ++ (getEnt s c).name ++ " is closed, so things can't be placed there.",
        none, false, s⟩ := by
  simp only [placeObjectInContainer]
  rw [if_neg (by simp [hc]), if_neg (by simp [hm]), if_pos (by simp [hop])]

theorem place_ok (s : GameState) (c o : EId)
    (hc : (getEnt s c).props.isContainer = true)
    (hm : (getEnt s o).props.isMoveable = true)
    (hop : (getEnt s c).props.isOpen = some true) :
    placeObjectInContainer s c o =
      ⟨"The " ++ ref0 (addObject s c o) o ++ " is placed in the "
          ++ (getEnt (addObject s c o) c).name ++ ".",
        none, true, addObject s c o⟩ := by
  simp only [placeObjectInContainer]
  rw [if_neg (by simp [hc]), if_neg (by simp [hm]), if_neg (by simp [hop])]

theorem take_not_container (s : GameState) (c o : EId)
    (hc : (getEnt s c).props.isContainer = false) :
    takeObjectFromContainer s c o =
      ⟨"The " ++ (getEnt s c).name ++ " is not a container, so things can't be removed from it.",
        some none, false, s⟩ := by
  simp only [takeObjectFromContainer]
  rw [if_pos (by simp [hc])]

theorem take_not_moveable (s : GameState) (c o : EId)
    (hc : (getEnt s c).props.isContainer = true)
    (hm : (getEnt s o).props.isMoveable = false) :
    takeObjectFromContainer s c o =
      ⟨"The " ++ (getEnt s o).name ++ " is not moveable.", some none, false, s⟩ := by
  simp only [takeObjectFromContainer]
  rw [if_neg (by simp [hc]), if_pos (by simp [hm])]

theorem take_closed (s : GameState) (c o : EId)
    (hc : (getEnt s c).props.isContainer = true)
    (hm : (getEnt s o).props.isMoveable = true)
    (hop : ¬((getEnt s c).props.isOpen = some true)) :
    takeObjectFromContainer s c o =
      ⟨"The " ++ (getEnt s c).name ++ " is closed, so things can't be removed from it.",
        some none, false, s⟩ := by
  simp only [takeObjectFromContainer]
  rw [if_neg (by simp [hc]), if_neg (by simp [hm]), if_pos (by simp [hop])]

theorem take_not_contained (s : GameState) (c o : EId)
    (hc : (getEnt s c).props.isContainer = true)
    (hm : (getEnt s o).props.isMoveable = true)
    (hop : (getEnt s c).props.isOpen = some true)
    (hmem : o ∉ (getEnt s c).contains) :
    takeObjectFromContainer s c o =
      ⟨"The " ++ (getEnt s o).name ++ " is not contained in the "
          ++ (getEnt s c).name ++ ".", some none, false, s⟩ := by
  simp only [takeObjectFromContainer]
  rw [if_neg (by simp [hc]), if_neg (by simp [hm]), if_neg (by simp [hop]),
    if_pos (by simp [hmem])]

theorem take_ok (s : GameState) (c o : EId)
    (hc : (getEnt s c).props.isContainer = true)
    (hm : (getEnt s o).props.isMoveable = true)
    (hop : (getEnt s c).props.isOpen = some true)
    (hmem : o ∈ (getEnt s c).contains) :
    takeObjectFromContainer s c o =
      ⟨"The " ++ ref0 (removeSelfFromContainer s o) o ++ " is removed from the "
          ++ (getEnt (removeSelfFromContainer s o) c).name ++ ".",
        some (some o), true, removeSelfFromContainer s o⟩ := by
  simp only [takeObjectFromContainer]
  rw [if_neg (by simp [hc]), if_neg (by simp [hm]), if_neg (by simp [hop]),
    if_neg (by simp [hmem])]

/-!
### The catalog only reads the tree (congruence) and dispatches the first
registered tuple
-/

theorem getReferents_congr {s t : GameState} (he : t.ents = s.ents) :
    getReferents t = getReferents s := by
  funext i
  unfold getReferents
  rw [getEnt_congr he i]

theorem ref0_congr {s t : GameState} (he : t.ents = s.ents) : ref0 t = ref0 s := by
  funext i
  unfold ref0
  rw [getReferents_congr he]

theorem parentRef0_congr {s t : GameState} (he : t.ents = s.ents) :
    parentRef0 t = parentRef0 s := by
  funext i
  unfold parentRef0
  rw [getEnt_congr he i, ref0_congr he]

theorem getAllContained_congr {s t : GameState} (he : t.ents = s.ents) :
    getAllContainedObjectsRecursive t = getAllContainedObjectsRecursive s := by
  funext i
  unfold getAllContainedObjectsRecursive
  rw [show t.ents.length = s.ents.length by rw [he]]
  exact recContains_congr (fun j => by rw [getEnt_congr he j]) s.ents.length i

theorem makeNameToObjectDict_congr {s t : GameState} (he : t.ents = s.ents)
    (hr : t.rootId = s.rootId) : makeNameToObjectDict t = makeNameToObjectDict s := by
  unfold makeNameToObjectDict
  rw [getAllContained_congr he, getReferents_congr he, hr]

/-- The action catalog is a function of the tree alone. -/
theorem generatePossibleActions_congr {s t : GameState} (he : t.ents = s.ents)
    (hr : t.rootId = s.rootId) :
    generatePossibleActions t = generatePossibleActions s := by
  unfold generatePossibleActions
  rw [makeNameToObjectDict_congr he hr, parentRef0_congr he,
    show getEnt t = getEnt s from funext (getEnt_congr he)]

/-- The catalog consulted by `step_action` is that of the incoming tree. -/
theorem catalog_step (s : GameState) :
    generatePossibleActions (withObs s "") = generatePossibleActions s :=
  generatePossibleActions_congr rfl rfl

/-- When the command has a registered entry, `step_action` bumps `numSteps`
and runs the FIRST argument tuple of that entry, whatever follows it. -/
theorem step_action_dispatch_head (s : GameState) (cmd : String)
    (a : GAction) (rest : List GAction)
    (h : dictLookup (generatePossibleActions s) cmd = some (a :: rest)) :
    step_action s cmd =
      applyAction { withObs s "" with numSteps := s.numSteps + 1 } a := by
  simp only [step_action]
  rw [catalog_step, h]
  dsimp only
  have hsel : (if 1 < (a :: rest).length then (a :: rest)[0]? else (a :: rest)[0]?)
      = some a := by
    split <;> simp
  rw [hsel]
  rfl

/-- Unmatched commands short-circuit `step_action` with the fixed
observation and no other change. -/
theorem step_action_unmatched (s : GameState) (cmd : String)
    (h : dictLookup (generatePossibleActions s) cmd = none) :
    step_action s cmd = withObs s "I don't understand that." := by
  simp only [step_action]
  rw [catalog_step, h]
  rfl

/-!
## Concrete demonstration states

Each is a small reachable configuration of the dishwasher game, written out
as an explicit heap (a comment records an action sequence producing it).
-/

/-- Mid-cycle: the dishwasher is closed and on at `cycleStage = 1` with one
dirty plate and a squirt of soap inside.  Reached from a fresh game by
open/take/put/close, "use bottle of dish soap on dishwasher", "turn on
dishwasher" (whose step already ticked the stage 0 → 1). -/
def demoMidCycle : GameState :=
  { ents :=
      [ { agentEntity with parent := some 1 },
        { worldEntity with contains := [0, 2] },
        { dishWasherEntity 2 with
            parent := some 1,
            contains := [3, 4],
            props := { (dishWasherEntity 2).props with
                        isOn := some true, cycleStage := some 1 } },
        { dirtyDishEntity 3 "plate" "apple (ID: 9)" "on" with parent := some 2 },
        { soapEntity 4 with parent := some 2 } ],
    agentId := 0, rootId := 1, score := 0, numSteps := 3, gameOver := false,
    gameWon := false, observationStr := "", numStartingDirtyDishes := 1 }

/-- As `demoMidCycle`, but the washer has just been turned on and not yet
ticked (`cycleStage = 0`). -/
def demoWash : GameState :=
  { demoMidCycle with
      ents := demoMidCycle.ents.set 2
        { dishWasherEntity 2 with
            parent := some 1,
            contains := [3, 4],
            props := { (dishWasherEntity 2).props with
                        isOn := some true, cycleStage := some 0 } } }

/-- A mid-cycle washer whose door has just been opened. -/
def demoOpenWash : GameState :=
  { demoMidCycle with
      ents := demoMidCycle.ents.set 2
        { dishWasherEntity 2 with
            parent := some 1,
            contains := [3, 4],
            props := { (dishWasherEntity 2).props with
                        isOpen := some true, isOn := some true, cycleStage := some 1 } } }

/-- A dirty plate held in the inventory, with the dishwasher closed: the
configuration in which "put plate in dishwasher" exercises the rollback. -/
def demoPut : GameState :=
  { ents :=
      [ { agentEntity with parent := some 1, contains := [3] },
        { worldEntity with contains := [0, 2] },
        { dishWasherEntity 2 with parent := some 1 },
        { dirtyDishEntity 3 "plate" "apple (ID: 9)" "on" with parent := some 0 } ],
    agentId := 0, rootId := 1, score := 0, numSteps := 4, gameOver := false,
    gameWon := false, observationStr := "", numStartingDirtyDishes := 1 }

/-- Two distinct foods that share the referent string "apple" (the spec's
ambiguous-referent scenario, §8). -/
def demoTwoApples : GameState :=
  { ents :=
      [ { agentEntity with parent := some 1 },
        { worldEntity with contains := [0, 2, 3] },
        { foodEntity 2 "apple" with parent := some 1, name := "apple" },
        { foodEntity 3 "apple" with parent := some 1, name := "apple" } ],
    agentId := 0, rootId := 1, score := 0, numSteps := 0, gameOver := false,
    gameWon := false, observationStr := "", numStartingDirtyDishes := 0 }

/-- An apple and a banana on the kitchen floor, nothing in the inventory. -/
def demoFloor : GameState :=
  { ents :=
      [ { agentEntity with parent := some 1 },
        { worldEntity with contains := [0, 2, 3] },
        { foodEntity 2 "apple" with parent := some 1 },
        { foodEntity 3 "banana" with parent := some 1 } ],
    agentId := 0, rootId := 1, score := 0, numSteps := 0, gameOver := false,
    gameWon := false, observationStr := "", numStartingDirtyDishes := 0 }

/-- A balance-scale engine state with the game already over. -/
def demoBSOver : BSState :=
  { score := 1, gameOver := true, gameWon := true, answer_mass := some 7,
    cube_weight := 7 }

/-- `demoMidCycle` with the game-over latch already set. -/
def demoOver : GameState := { demoMidCycle with gameOver := true }

theorem obs_doWorldTick (s : GameState) :
    (doWorldTick s).observationStr = s.observationStr :=
  congrArg Prod.fst (tickMeta_doWorldTick s)

theorem numSteps_doWorldTick (s : GameState) :
    (doWorldTick s).numSteps = s.numSteps :=
  congrArg Prod.snd (tickMeta_doWorldTick s)

/-!
## The claims
-/

set_option maxRecDepth 100000 in
set_option maxHeartbeats 4000000 in
/-- C1, counterexample: at the reachable mid-cycle state `demoMidCycle`,
"frobnicate" is not a key of the action catalog, yet `step` returns reward
1 (not 0) and flips `gameOver` — the environment tick and rescoring run even
for unmatched commands, so the claim as stated is false. -/
theorem C1_counterexample :
    dictLookup (generatePossibleActions demoMidCycle) "frobnicate" = none ∧
    demoMidCycle.gameOver = false ∧
    (step demoMidCycle "frobnicate").2 = 1 ∧
    (step demoMidCycle "frobnicate").1.gameOver = true := by
  decide

set_option maxHeartbeats 1000000 in
/-- C1 (amended): a `step` whose command string is not a key of the current
action catalog sets the fixed observation "I don't understand that." and
dispatches no handler (`numSteps` is not even incremented), but the
environment tick and the from-scratch rescore still run: the final state is
exactly `calculateScore (doWorldTick ·)` of the otherwise-unchanged state,
and the reward is the score delta those two phases produce (not necessarily
zero). -/
theorem C1_theorem (s : GameState) (cmd : String)
    (h : dictLookup (generatePossibleActions s) cmd = none) :
    (step s cmd).1.observationStr = "I don't understand that." ∧
    (step s cmd).1.numSteps = s.numSteps ∧
    (step s cmd).1 = calculateScore (doWorldTick (withObs s "I don't understand that.")) ∧
    (step s cmd).2 = (step s cmd).1.score - s.score := by
  have hsa : step_action s cmd = withObs s "I don't understand that." :=
    step_action_unmatched s cmd h
  have hstate : (step s cmd).1
      = calculateScore (doWorldTick (withObs s "I don't understand that.")) := by
    rw [step_eq, hsa]
  have hscore : (doWorldTick (withObs s "I don't understand that.")).score = s.score := by
    rw [score_of_metaOf (metaOf_doWorldTick _)]
    rfl
  refine ⟨?_, ?_, hstate, ?_⟩
  · rw [hstate, calculateScore_observationStr, obs_doWorldTick]
    rfl
  · rw [hstate, calculateScore_numSteps, numSteps_doWorldTick]
    rfl
  · rw [step_eq, hsa]
    show (calculateScore (doWorldTick (withObs s "I don't understand that."))).score -
        (doWorldTick (withObs s "I don't understand that.")).score
      = (calculateScore (doWorldTick (withObs s "I don't understand that."))).score - s.score
    rw [hscore]

set_option maxRecDepth 100000 in
set_option maxHeartbeats 4000000 in
/-- C1, witness for the amended theorem at a concrete unmatched command. -/
theorem C1_witness :
    (step demoMidCycle "frobnicate").1.observationStr = "I don't understand that." ∧
    (step demoMidCycle "frobnicate").1.numSteps = demoMidCycle.numSteps ∧
    (step demoMidCycle "frobnicate").1
      = calculateScore (doWorldTick (withObs demoMidCycle "I don't understand that.")) ∧
    (step demoMidCycle "frobnicate").2
      = (step demoMidCycle "frobnicate").1.score - demoMidCycle.score :=
  C1_theorem demoMidCycle "frobnicate" (by decide)

/-- C5: for every step call the reward component of the returned tuple is
the final score minus the score at call entry — computed by the engine
(`step_calculate_score`) around the phases; no handler and no tick ever
writes the score field. -/
theorem C5_theorem (s : GameState) (cmd : String) :
    (step s cmd).2 = (step s cmd).1.score - s.score ∧
    (step_action s cmd).score = s.score ∧
    (doWorldTick (step_action s cmd)).score = s.score := by
  have h1 : (step_action s cmd).score = s.score :=
    score_of_metaOf (metaOf_step_action s cmd)
  have h2 : (doWorldTick (step_action s cmd)).score = (step_action s cmd).score :=
    score_of_metaOf (metaOf_doWorldTick _)
  refine ⟨?_, h1, h2.trans h1⟩
  rw [step_eq]
  show (calculateScore (doWorldTick (step_action s cmd))).score -
      (doWorldTick (step_action s cmd)).score
    = (calculateScore (doWorldTick (step_action s cmd))).score - s.score
  rw [h2, h1]

/-- C6: `gameOver` is a one-way latch.  In `dishwasher.py` no handler or
tick writes it and `calculateScore` only ever sets it to `True`; the same
holds for the `calculateScore` of `balance-scale-weigh.py`.  Only
constructing a new session resets it. -/
theorem C6_theorem :
    (∀ (s : GameState) (cmd : String), s.gameOver = true →
      (step s cmd).1.gameOver = true) ∧
    (∀ b : BSState, b.gameOver = true → (bsCalculateScore b).gameOver = true) := by
  constructor
  · intro s cmd h
    rw [step_eq]
    show (calculateScore (doWorldTick (step_action s cmd))).gameOver = true
    apply calculateScore_gameOver_latch
    rw [gameOver_of_metaOf (metaOf_doWorldTick _),
      gameOver_of_metaOf (metaOf_step_action s cmd)]
    exact h
  · intro b h
    cases hm : b.answer_mass with
    | none => simp [bsCalculateScore, hm, h]
    | some m =>
        by_cases hcw : b.cube_weight = m <;> simp [bsCalculateScore, hm, hcw]

set_option maxRecDepth 100000 in
set_option maxHeartbeats 4000000 in
/-- C6, witness: one latched dishwasher step and one latched balance-scale
rescore. -/
theorem C6_witness :
    (step demoOver "look around").1.gameOver = true ∧
    (bsCalculateScore demoBSOver).gameOver = true :=
  ⟨C6_theorem.1 demoOver "look around" rfl, C6_theorem.2 demoBSOver rfl⟩

@[simp] theorem getEnt_withObs (s : GameState) (m : String) (i : EId) :
    getEnt (withObs s m) i = getEnt s i := rfl

/-- C2: "put" is detach-then-insert with rollback.  With the object in the
inventory and the destination a closed container, the handler first detaches
the object, the insertion fails, and the object is reinserted into its
original parent: afterwards it is again a member of exactly that parent's
child list (once there, nowhere else), and the observation is the insertion
failure. -/
theorem C2_theorem (s : GameState) (o c : EId) (h : WF s)
    (hagc : (getEnt s s.agentId).props.isContainer = true)
    (hago : (getEnt s s.agentId).props.isOpen = some true)
    (hmov : (getEnt s o).props.isMoveable = true)
    (hinv : (getEnt s o).parent = some s.agentId)
    (hcc : (getEnt s c).props.isContainer = true)
    (hcl : ¬((getEnt s c).props.isOpen = some true)) :
    (getEnt (actionPut s o c) o).parent = some s.agentId ∧
    o ∈ (getEnt (actionPut s o c) s.agentId).contains ∧
    ((getEnt (actionPut s o c) s.agentId).contains).count o = 1 ∧
    (∀ j, j ≠ s.agentId → o ∉ (getEnt (actionPut s o c) j).contains) ∧
    (actionPut s o c).observationStr =
      "The " ++ (getEnt s c).name ++ " is closed, so things can't be placed there." := by
  have hol : o < s.ents.length := lt_of_parent_some s hinv
  have hmem : o ∈ (getEnt s s.agentId).contains := (h.parent_mem o hol _ hinv).2
  have htake := take_ok s s.agentId o hagc hmov hago hmem
  set t := removeSelfFromContainer s o with htdef
  have hWFt : WF t := WF_removeSelf s o h
  have htlen : t.ents.length = s.ents.length := length_removeSelf s o
  have hccT : (getEnt t c).props.isContainer = true := by
    rw [htdef, removeSelf_props]; exact hcc
  have hmovT : (getEnt t o).props.isMoveable = true := by
    rw [htdef, removeSelf_props]; exact hmov
  have hclT : ¬((getEnt t c).props.isOpen = some true) := by
    rw [htdef, removeSelf_props]; exact hcl
  have hplace := place_closed t c o hccT hmovT hclT
  have hput : actionPut s o c = withObs (addObject t s.agentId o)
      ("The " ++ (getEnt t c).name ++ " is closed, so things can't be placed there.") := by
    simp only [actionPut]
    rw [if_neg (by simp [hcc]), if_neg (by simp [hinv])]
    rw [htake]
    rw [if_neg (show ¬((true : Bool) = false) by decide)]
    rw [hplace]
    rw [if_pos rfl]
  have hdet : ∀ j, o ∉ (getEnt t j).contains := removeSelf_detached s o h
  have hagl : s.agentId < t.ents.length := by rw [htlen]; exact h.agent_lt
  have holT : o < t.ents.length := by rw [htlen]; exact hol
  have hpar := addObject_parent t s.agentId o hWFt hagl holT
  have hcon := addObject_contains t s.agentId o hWFt hagl
  refine ⟨?_, ?_, ?_, ?_, ?_⟩
  · rw [hput, getEnt_withObs, hpar, if_pos rfl]
  · rw [hput, getEnt_withObs, hcon, if_pos rfl]
    exact List.mem_append.mpr (.inr (List.mem_singleton.mpr rfl))
  · rw [hput, getEnt_withObs, hcon, if_pos rfl]
    rw [List.count_append]
    have h0 : ((getEnt t s.agentId).contains.erase o).count o = 0 :=
      List.count_eq_zero.mpr (fun hx => hdet s.agentId (List.mem_of_mem_erase hx))
    rw [h0]
    simp
  · intro j hj
    rw [hput, getEnt_withObs, hcon, if_neg hj]
    exact fun hx => hdet j (List.mem_of_mem_erase hx)
  · rw [hput]
    show "The " ++ (getEnt t c).name ++ " is closed, so things can't be placed there."
      = "The " ++ (getEnt s c).name ++ " is closed, so things can't be placed there."
    rw [htdef, removeSelf_name]

/-- C2, witness: putting the held dirty plate into the closed dishwasher of
`demoPut` rolls the plate back into the inventory. -/
theorem C2_witness :
    (getEnt (actionPut demoPut 3 2) 3).parent = some demoPut.agentId ∧
    3 ∈ (getEnt (actionPut demoPut 3 2) demoPut.agentId).contains ∧
    (actionPut demoPut 3 2).observationStr =
      "The dishwasher (ID: 2) is closed, so things can't be placed there." := by
  obtain ⟨h1, h2, h3, h4, h5⟩ := C2_theorem demoPut 3 2 (by constructor <;> decide)
    (by decide) (by decide) (by decide) (by decide) (by decide) (by decide)
  exact ⟨h1, h2, by rw [h5]; rfl⟩

/-- C3: after any sequence of take/put handler invocations starting from a
freshly initialized world, every entity has at most one parent, and an
entity with a parent occurs exactly once in that parent's child list and in
no other child list, while parentless entities occur in none; moreover
`addObject` is an atomic detach-then-append: it erases the object from
every child list, appends it to the new container's, and redirects the
parent pointer. -/
theorem C3_theorem (dishNames foodNames : List String)
    (numDirty numClean numFood : Nat) (ops : List TPOp) :
    ContainmentInvariant
      (applyTPOps (newGame dishNames foodNames numDirty numClean numFood) ops) ∧
    (∀ s c o, WF s → c < s.ents.length → o < s.ents.length →
      ((getEnt (addObject s c o) o).parent = some c ∧
       (getEnt (addObject s c o) c).contains =
         ((getEnt s c).contains).erase o ++ [o] ∧
       ∀ j, j ≠ c →
         (getEnt (addObject s c o) j).contains = ((getEnt s j).contains).erase o)) := by
  constructor
  · exact containmentInvariant_of_WF _
      (WF_applyTPOps _ ops (WF_newGame dishNames foodNames numDirty numClean numFood))
  · intro s c o h hc ho
    refine ⟨?_, ?_, ?_⟩
    · rw [addObject_parent s c o h hc ho o, if_pos rfl]
    · rw [addObject_contains s c o h hc c, if_pos rfl]
    · intro j hj
      rw [addObject_contains s c o h hc j, if_neg hj]

/-- C3, witness: the invariant holds after take-then-put from a small
initial world, and a concrete `addObject` detaches and appends atomically. -/
theorem C3_witness :
    ContainmentInvariant (applyTPOps (newGame ["plate"] ["apple"] 1 0 0)
        [TPOp.takeOp 3, TPOp.putOp 3 2]) ∧
    (getEnt (addObject demoFloor 2 3) 3).parent = some 2 ∧
    (getEnt (addObject demoFloor 2 3) 2).contains =
      ((getEnt demoFloor 2).contains).erase 3 ++ [3] := by
  obtain ⟨h1, h2⟩ := C3_theorem ["plate"] ["apple"] 1 0 0 [TPOp.takeOp 3, TPOp.putOp 3 2]
  obtain ⟨p1, p2, p3⟩ := h2 demoFloor 2 3 (by constructor <;> decide) (by decide) (by decide)
  exact ⟨h1, p1, p2⟩

/-- C4: in every `step`, after the action handler, the tick hook of every
entity reachable from the root runs exactly once, unconditionally: the
engine folds `tickOne` over the pre-order traversal list, that list holds
each transitive descendant of the root exactly once (no duplicates), and
catalog building (`makeNameToObjectDict`) folds over the very same
traversal. -/
theorem C4_theorem (s : GameState) (cmd : String) (h : WF s) :
    (step s cmd).1 = calculateScore (doWorldTick (step_action s cmd)) ∧
    doWorldTick (step_action s cmd) =
      (getAllContainedObjectsRecursive (step_action s cmd)
        (step_action s cmd).rootId).foldl tickOne (step_action s cmd) ∧
    (getAllContainedObjectsRecursive (step_action s cmd)
      (step_action s cmd).rootId).Nodup ∧
    (∀ j, j ∈ getAllContainedObjectsRecursive (step_action s cmd)
        (step_action s cmd).rootId ↔
      Desc (step_action s cmd) (step_action s cmd).rootId j) ∧
    makeNameToObjectDict (step_action s cmd) =
      (getAllContainedObjectsRecursive (step_action s cmd)
        (step_action s cmd).rootId).foldl
        (fun d i => (getReferents (step_action s cmd) i).foldl
          (fun d n => dictAdd d n i) d) [] := by
  obtain ⟨hnd, hmem⟩ := traversal_exact (step_action s cmd) (WF_step_action s cmd h)
  refine ⟨?_, rfl, hnd, hmem, rfl⟩
  rw [step_eq]

set_option maxRecDepth 100000 in
set_option maxHeartbeats 4000000 in
/-- C4, witness: at the mid-cycle demo state the step decomposition and the
duplicate-freeness of the tick traversal hold concretely. -/
theorem C4_witness :
    (step demoMidCycle "look around").1 =
      calculateScore (doWorldTick (step_action demoMidCycle "look around")) ∧
    (getAllContainedObjectsRecursive (step_action demoMidCycle "look around")
      (step_action demoMidCycle "look around").rootId).Nodup := by
  obtain ⟨h1, h2, h3, h4, h5⟩ :=
    C4_theorem demoMidCycle "look around" (by constructor <;> decide)
  exact ⟨h1, h3⟩

/-- C7: `placeObjectInContainer` fails with the branch's explanation and no
mutation when the receiver is not a container, the object is not moveable,
or the receiver is closed, and otherwise succeeds, its one mutation the
`addObject` reparent of the object into the receiver;
`takeObjectFromContainer` runs the symmetric checks plus the membership
check that the object is among the receiver's children, detaching it on
success. -/
theorem C7_theorem (s : GameState) (c o : EId) (h : WF s) :
    ((getEnt s c).props.isContainer = false →
      placeObjectInContainer s c o =
        ⟨"The " ++ (getEnt s c).name ++ " is not a container, so things can't be placed there.",
          none, false, s⟩) ∧
    ((getEnt s c).props.isContainer = true → (getEnt s o).props.isMoveable = false →
      placeObjectInContainer s c o =
        ⟨"The " ++ (getEnt s o).name ++ " is not moveable.", some none, false, s⟩) ∧
    ((getEnt s c).props.isContainer = true → (getEnt s o).props.isMoveable = true →
      ¬((getEnt s c).props.isOpen = some true) →
      placeObjectInContainer s c o =
        ⟨"The " ++ (getEnt s c).name ++ " is closed, so things can't be placed there.",
          none, false, s⟩) ∧
    ((getEnt s c).props.isContainer = true → (getEnt s o).props.isMoveable = true →
      (getEnt s c).props.isOpen = some true →
      (placeObjectInContainer s c o).success = true ∧
      (placeObjectInContainer s c o).state = addObject s c o ∧
      (getEnt (addObject s c o) o).parent = some c ∧
      (c < s.ents.length → o ∈ (getEnt (addObject s c o) c).contains)) ∧
    ((getEnt s c).props.isContainer = false →
      takeObjectFromContainer s c o =
        ⟨"The " ++ (getEnt s c).name ++ " is not a container, so things can't be removed from it.",
          some none, false, s⟩) ∧
    ((getEnt s c).props.isContainer = true → (getEnt s o).props.isMoveable = false →
      takeObjectFromContainer s c o =
        ⟨"The " ++ (getEnt s o).name ++ " is not moveable.", some none, false, s⟩) ∧
    ((getEnt s c).props.isContainer = true → (getEnt s o).props.isMoveable = true →
      ¬((getEnt s c).props.isOpen = some true) →
      takeObjectFromContainer s c o =
        ⟨"The " ++ (getEnt s c).name ++ " is closed, so things can't be removed from it.",
          some none, false, s⟩) ∧
    ((getEnt s c).props.isContainer = true → (getEnt s o).props.isMoveable = true →
      (getEnt s c).props.isOpen = some true → o ∉ (getEnt s c).contains →
      takeObjectFromContainer s c o =
        ⟨"The " ++ (getEnt s o).name ++ " is not contained in the "
            ++ (getEnt s c).name ++ ".", some none, false, s⟩) ∧
    ((getEnt s c).props.isContainer = true → (getEnt s o).props.isMoveable = true →
      (getEnt s c).props.isOpen = some true → o ∈ (getEnt s c).contains →
      (takeObjectFromContainer s c o).success = true ∧
      (takeObjectFromContainer s c o).state = removeSelfFromContainer s o ∧
      (getEnt (removeSelfFromContainer s o) o).parent = none ∧
      ∀ j, o ∉ (getEnt (removeSelfFromContainer s o) j).contains) := by
  have hlt : ∀ (hc : (getEnt s c).props.isContainer = true), c < s.ents.length :=
    fun hc => lt_of_isContainer s hc
  refine ⟨fun hc => place_not_container s c o hc,
    fun hc hm => place_not_moveable s c o hc hm,
    fun hc hm hop => place_closed s c o hc hm hop,
    fun hc hm hop => ?_,
    fun hc => take_not_container s c o hc,
    fun hc hm => take_not_moveable s c o hc hm,
    fun hc hm hop => take_closed s c o hc hm hop,
    fun hc hm hop hnm => take_not_contained s c o hc hm hop hnm,
    fun hc hm hop hmem => ?_⟩
  · have ho : o < s.ents.length := lt_of_isMoveable s hm
    refine ⟨by rw [place_ok s c o hc hm hop], by rw [place_ok s c o hc hm hop], ?_, ?_⟩
    · rw [addObject_parent s c o h (hlt hc) ho o, if_pos rfl]
    · intro hcl
      rw [addObject_contains s c o h hcl c, if_pos rfl]
      exact List.mem_append.mpr (.inr (List.mem_singleton.mpr rfl))
  · refine ⟨by rw [take_ok s c o hc hm hop hmem], by rw [take_ok s c o hc hm hop hmem], ?_,
      removeSelf_detached s o h⟩
    rw [removeSelf_parent s o h o, if_pos rfl]

/-- C7, witness: against the closed dishwasher of `demoPut`, both the place
and the take calls fail with the closed-container explanation and leave the
state unchanged. -/
theorem C7_witness :
    placeObjectInContainer demoPut 2 3 =
      ⟨"The dishwasher (ID: 2) is closed, so things can't be placed there.",
        none, false, demoPut⟩ ∧
    takeObjectFromContainer demoPut 2 3 =
      ⟨"The dishwasher (ID: 2) is closed, so things can't be removed from it.",
        some none, false, demoPut⟩ := by
  obtain ⟨p1, p2, p3, p4, t1, t2, t3, t4, t5⟩ :=
    C7_theorem demoPut 2 3 (by constructor <;> decide)
  constructor
  · rw [p3 (by decide) (by decide) (by decide)]
    rfl
  · rw [t3 (by decide) (by decide) (by decide)]
    rfl

/-- C8: for a closed, activated washer at stage 0 with soap among its
(transitive) contents, three ticks with the door kept closed advance the
stage once per tick and end with every contained dish clean, the cycle
finished and the device off; and a tick on an open washer just resets it:
`isOn` false, stage 0, `finishedCycle` false. -/
theorem C8_theorem (s : GameState) (w : EId) (h : WF s)
    (hk : (getEnt s w).kind = .dishwasher)
    (hopen : (getEnt s w).props.isOpen = some false)
    (hon : (getEnt s w).props.isOn = some true)
    (hstage : (getEnt s w).props.cycleStage = some 0)
    (hact : (getEnt s w).props.isActivatable = some true)
    (hsoap : ∃ x ∈ getAllContainedObjectsRecursive s w, (getEnt s x).kind = .soap) :
    ((getEnt (dishWasherTick s w) w).props.cycleStage = some 1 ∧
     (getEnt (dishWasherTick (dishWasherTick s w) w) w).props.cycleStage = some 2 ∧
     ((getEnt (dishWasherTick (dishWasherTick (dishWasherTick s w) w) w) w).props.finishedCycle
         = some true ∧
       (getEnt (dishWasherTick (dishWasherTick (dishWasherTick s w) w) w) w).props.isOn
         = some false ∧
       (getEnt (dishWasherTick (dishWasherTick (dishWasherTick s w) w) w) w).props.cycleStage
         = some 0) ∧
     ∀ d ∈ getAllContainedObjectsRecursive
         (dishWasherTick (dishWasherTick (dishWasherTick s w) w) w) w,
       (getEnt (dishWasherTick (dishWasherTick (dishWasherTick s w) w) w) d).kind = .dish →
       (getEnt (dishWasherTick (dishWasherTick (dishWasherTick s w) w) w) d).props.isDirty
         = some false) ∧
    (∀ t v, (getEnt t v).props.isOpen = some true →
      (getEnt (dishWasherTick t v) v).props.isOn = some false ∧
      (getEnt (dishWasherTick t v) v).props.cycleStage = some 0 ∧
      (getEnt (dishWasherTick t v) v).props.finishedCycle = some false) := by
  refine ⟨washerCycle_spec s w h hk hopen hon hstage hact hsoap, ?_⟩
  intro t v hov
  rw [dishWasherTick_open t v hov]
  rw [getEnt_modifyEnt_self _ _ _ (lt_of_prop_isOpen hov)]
  exact ⟨rfl, rfl, rfl⟩

set_option maxRecDepth 100000 in
set_option maxHeartbeats 4000000 in
/-- C8, witness: three ticks on the loaded `demoWash` washer finish the
cycle and clean the plate, and one tick on `demoOpenWash` resets it. -/
theorem C8_witness :
    (getEnt (dishWasherTick (dishWasherTick (dishWasherTick demoWash 2) 2) 2) 2).props.finishedCycle
        = some true ∧
    (getEnt (dishWasherTick (dishWasherTick (dishWasherTick demoWash 2) 2) 2) 2).props.isOn
        = some false ∧
    (getEnt (dishWasherTick (dishWasherTick (dishWasherTick demoWash 2) 2) 2) 3).props.isDirty
        = some false ∧
    (getEnt (dishWasherTick demoOpenWash 2) 2).props.isOn = some false ∧
    (getEnt (dishWasherTick demoOpenWash 2) 2).props.cycleStage = some 0 := by
  obtain ⟨⟨h1, h2, ⟨hf, hoff, hst⟩, hd⟩, hreset⟩ :=
    C8_theorem demoWash 2 (by constructor <;> decide) (by decide) (by decide)
      (by decide) (by decide) (by decide) ⟨4, by decide, by decide⟩
  obtain ⟨r1, r2, r3⟩ := hreset demoOpenWash 2 (by decide)
  exact ⟨hf, hoff, hd 3 (by decide) (by decide), r1, r2⟩

set_option maxRecDepth 100000 in
set_option maxHeartbeats 4000000 in
/-- C9: when a command maps to several argument tuples, dispatch always
runs the first registered tuple; concretely, with two foods both referring
to "apple", the catalog entry lists the tuple of entity 2 (first in
traversal order 0, 2, 3) before entity 3, and dispatching "take apple"
moves entity 2 into the inventory while entity 3 stays put — so repeated
dispatches against an unmutated tree resolve to that same first entity. -/
theorem C9_theorem :
    (∀ s cmd a rest, dictLookup (generatePossibleActions s) cmd = some (a :: rest) →
      step_action s cmd =
        applyAction { withObs s "" with numSteps := s.numSteps + 1 } a) ∧
    dictLookup (generatePossibleActions demoTwoApples) "take apple"
      = some [GAction.take 2, GAction.take 3] ∧
    getAllContainedObjectsRecursive demoTwoApples demoTwoApples.rootId = [0, 2, 3] ∧
    (getEnt (step_action demoTwoApples "take apple") 2).parent
      = some demoTwoApples.agentId ∧
    (getEnt (step_action demoTwoApples "take apple") 3).parent
      = some demoTwoApples.rootId := by
  refine ⟨fun s cmd a rest hk => step_action_dispatch_head s cmd a rest hk,
    by decide, by decide, by decide, by decide⟩

set_option maxRecDepth 100000 in
set_option maxHeartbeats 4000000 in
/-- C9, witness: the ambiguous "take apple" dispatch at `demoTwoApples` is
exactly the handler run on the first registered tuple. -/
theorem C9_witness :
    step_action demoTwoApples "take apple" =
      applyAction { withObs demoTwoApples "" with numSteps := demoTwoApples.numSteps + 1 }
        (GAction.take 2) := by
  exact C9_theorem.1 demoTwoApples "take apple" (GAction.take 2) [GAction.take 3] (by decide)

set_option maxRecDepth 100000 in
set_option maxHeartbeats 4000000 in
/-- C10, counterexample: at `demoFloor` the apple is not in the inventory,
the catalog still registers "put apple (ID: 2) in banana (ID: 3)", and the
dispatched put fails with the banana's not-a-container message — not the
claimed inventory message — because `actionPut` checks the destination
before the inventory; the world is unmutated, as claimed. -/
theorem C10_counterexample :
    (getEnt demoFloor 2).parent ≠ some demoFloor.agentId ∧
    dictLookup (generatePossibleActions demoFloor) "put apple (ID: 2) in banana (ID: 3)"
      = some [GAction.put 2 3] ∧
    (step_action demoFloor "put apple (ID: 2) in banana (ID: 3)").observationStr
      = "You can't put things in the banana (ID: 3)." ∧
    (step_action demoFloor "put apple (ID: 2) in banana (ID: 3)").observationStr
      ≠ "You don't currently have the apple (ID: 2) in your inventory." ∧
    (step_action demoFloor "put apple (ID: 2) in banana (ID: 3)").ents = demoFloor.ents := by
  refine ⟨by decide, by decide, by decide, by decide, by decide⟩

/-- C10, amended: the eat handler rejects, with the fixed inventory message
and no mutation, any object that is not a direct child of the agent; the
put handler performs the same check with the same message, but only after
its destination check, so it reaches the inventory message exactly when the
destination is a container. -/
theorem C10_theorem (s : GameState) (o c d : EId)
    (hinv : (getEnt s o).parent ≠ some s.agentId) :
    ((getEnt s c).props.isContainer = true →
      actionPut s o c = withObs s
        ("You don't currently have the " ++ ref0 s o ++ " in your inventory.")) ∧
    actionEat s o d = withObs s
      ("You don't currently have the " ++ ref0 s o ++ " in your inventory.") := by
  constructor
  · intro hcc
    simp only [actionPut]
    rw [if_neg (by simp [hcc]), if_pos hinv]
  · simp only [actionEat]
    rw [if_pos hinv]

/-- C10, witness: at `demoPut`, putting the (unheld) dishwasher into the
agent's own inventory container and eating it both fail with the inventory
message. -/
theorem C10_witness :
    actionPut demoPut 2 0 = withObs demoPut
      ("You don't currently have the " ++ ref0 demoPut 2 ++ " in your inventory.") ∧
    actionEat demoPut 2 3 = withObs demoPut
      ("You don't currently have the " ++ ref0 demoPut 2 ++ " in your inventory.") := by
  obtain ⟨h1, h2⟩ := C10_theorem demoPut 2 0 3 (by decide)
  exact ⟨h1 (by decide), h2⟩
